import Mathlib

/-!
Verification of the gallery-inspector metadata pipeline.

This file shallowly embeds the Python modules `gallery_inspector/common.py`,
`gallery_inspector/analysis.py`, `gallery_inspector/generate.py` and
`gallery_inspector/filtering.py` into Lean.  Python dictionaries become
association lists over a small dynamic-value type, machine floats become
exact rationals, the filesystem and the third-party metadata readers
(PIL, piexif, exifread, pymediainfo) become explicit oracles recorded on
the file object, and raising an exception becomes returning `Except.error`.
Busy-wait loops are given explicit fuel.
-/

set_option autoImplicit false

namespace GalleryInspector

/-- Python exception kinds relevant to the embedded code. -/
inductive PyErr where
  | osError
  | valueError
  | typeError
  | zeroDivision
  | attributeError
  deriving DecidableEq

deriving instance DecidableEq for Except

/-! ## Exact rational arithmetic

`Rat.add`/`Rat.mul`/`Rat.inv` are `@[irreducible]`, so the embedding
computes through `Rat.divInt` instead; the bridge lemmas below relate
these helpers to the ordinary field operations for use in proofs. -/

def ratDiv (a b : Rat) : Rat :=
  Rat.divInt (a.num * (b.den : Int)) ((a.den : Int) * b.num)

def ratAdd (a b : Rat) : Rat :=
  Rat.divInt (a.num * (b.den : Int) + b.num * (a.den : Int)) ((a.den : Int) * (b.den : Int))

def ratMul (a b : Rat) : Rat :=
  Rat.divInt (a.num * b.num) ((a.den : Int) * (b.den : Int))

def ratSub (a b : Rat) : Rat :=
  ratAdd a (-b)

/-! ## Python string and number fragment -/

/-- ASCII lowercasing, as applied by `str.lower()` to the ASCII fragment
of a string (all strings manipulated by the embedded code are ASCII or
Latin-1, where Python and this model agree on the letters used here). -/
def pyLowerChar (c : Char) : Char :=
  if 65 ≤ c.toNat ∧ c.toNat ≤ 90 then Char.ofNat (c.toNat + 32) else c

def pyLower (s : String) : String :=
  ⟨s.data.map pyLowerChar⟩

def isDigitChar (c : Char) : Bool :=
  48 ≤ c.toNat && c.toNat ≤ 57

def digitsToNat (cs : List Char) : Nat :=
  cs.foldl (fun acc c => acc * 10 + (c.toNat - 48)) 0

/-- `int(str)` on the fragment used by the sources: optional sign followed
by one or more ASCII digits.  `Option.none` corresponds to `ValueError`. -/
def pyInt? (s : String) : Option Int :=
  match s.data with
  | [] => Option.none
  | c :: rest =>
    if c = '-' then
      if rest ≠ [] ∧ rest.all isDigitChar then Option.some (-(digitsToNat rest : Int))
      else Option.none
    else if c = '+' then
      if rest ≠ [] ∧ rest.all isDigitChar then Option.some (digitsToNat rest : Int)
      else Option.none
    else if (c :: rest).all isDigitChar then Option.some (digitsToNat (c :: rest) : Int)
    else Option.none

/-- `float(str)` on the decimal fragment used by the sources: optional
sign, then `digits`, `digits.digits`, `.digits` or `digits.` with at least
one digit overall.  Exponents, `inf`/`nan`, underscores and surrounding
whitespace are outside the modelled fragment.  The value is kept as an
exact rational; every concrete comparison made by the sources on these
values is exact.  `Option.none` corresponds to `ValueError`. -/
def pyFloatCore? (cs : List Char) : Option Rat :=
  let withDot := cs.splitOn '.'
  match withDot with
  | [ip] =>
    if ip ≠ [] ∧ ip.all isDigitChar then Option.some (digitsToNat ip : Rat)
    else Option.none
  | [ip, fp] =>
    if (ip ≠ [] ∨ fp ≠ []) ∧ ip.all isDigitChar ∧ fp.all isDigitChar then
      Option.some (ratAdd (digitsToNat ip : Rat)
        (ratDiv (digitsToNat fp : Rat) ((10 ^ fp.length : Nat) : Rat)))
    else Option.none
  | _ => Option.none

def pyFloat? (s : String) : Option Rat :=
  match s.data with
  | '-' :: rest => (pyFloatCore? rest).map (fun q => -q)
  | '+' :: rest => pyFloatCore? rest
  | cs => pyFloatCore? cs

/-! ## `common.py` : `clean_excel_unsafe`

The source performs `re.sub(r"[\x00-\x1F\x7F-\x9F]", "", val)` on string
values.  We embed a single-character-class substitution engine and
instantiate it with that class and the empty replacement. -/

/-- Membership in the character class `[\x00-\x1F\x7F-\x9F]`. -/
def excelUnsafeClass (c : Char) : Bool :=
  c.toNat ≤ 0x1F || (0x7F ≤ c.toNat && c.toNat ≤ 0x9F)

/-- `re.sub` where the pattern is a one-character class: scan the string,
emitting `repl` for every character matched by `cls` and the character
itself otherwise. -/
def reSubClass (cls : Char → Bool) (repl : List Char) : List Char → List Char
  | [] => []
  | c :: cs => if cls c then repl ++ reSubClass cls repl cs else c :: reSubClass cls repl cs

def clean_excel_unsafe (s : String) : String :=
  ⟨reSubClass excelUnsafeClass [] s.data⟩

/-! ## `generate.py` : `sanitize_folder_name`

The source performs `re.sub(r"[^\w\-_. ]", "_", name)`.  Python's `\w`
is Unicode-aware.  The model is faithful on the Basic Latin and Latin-1
ranges (U+0000..U+00FF): there, Python's word characters are the ASCII
alphanumerics, the underscore, the Latin-1 letters U+00C0..U+00FF minus
the two signs U+00D7/U+00F7, and the letter/digit-like code points
ª ² ³ µ ¹ º.  Code points above U+00FF are left untouched by the model
(treated as word characters); the theorems below stay inside the
faithful range. -/

def isPyWordChar (c : Char) : Bool :=
  let v := c.toNat
  (48 ≤ v && v ≤ 57) || (65 ≤ v && v ≤ 90) || (97 ≤ v && v ≤ 122) || v == 95 ||
    v == 0xAA || v == 0xB2 || v == 0xB3 || v == 0xB5 || v == 0xB9 || v == 0xBA ||
    (0xC0 ≤ v && v ≤ 0xFF && v != 0xD7 && v != 0xF7) ||
    0x100 ≤ v

/-- The complement class `[^\w\-_. ]` of the source pattern. -/
def folderUnsafeClass (c : Char) : Bool :=
  !(isPyWordChar c || c.toNat = 45 || c.toNat = 95 || c.toNat = 46 || c.toNat = 32)

def sanitize_folder_name : Option String → Option String
  | Option.none => Option.none
  | Option.some s => Option.some ⟨reSubClass folderUnsafeClass ['_'] s.data⟩

/-! ## `filtering.py` : `_parse_shutter_speed`

The source lowercases, strips every `s`, then either parses `num/den`
(catching only `ValueError`) or parses a plain float (catching only
`ValueError`); a zero denominator therefore raises `ZeroDivisionError`,
modelled as `Except.error`. -/

def parseShutterCore (t : List Char) : Except PyErr Rat :=
  if t.contains '/' then
    match t.splitOn '/' with
    | [num, den] =>
      match pyFloat? ⟨num⟩ with
      | Option.none => Except.ok 0
      | Option.some a =>
        match pyFloat? ⟨den⟩ with
        | Option.none => Except.ok 0
        | Option.some b => if b = 0 then Except.error PyErr.zeroDivision else Except.ok (ratDiv a b)
    | _ => Except.ok 0
  else
    match pyFloat? ⟨t⟩ with
    | Option.some v => Except.ok v
    | Option.none => Except.ok 0

def _parse_shutter_speed (s : String) : Except PyErr Rat :=
  if s = "" then Except.ok 0
  else parseShutterCore ((s.data.map pyLowerChar).filter (fun c => c ≠ 's'))

/-! ## Dynamic values and dictionary records

The decoders build Python dictionaries of heterogeneous values.  `PyVal`
models the value types that actually occur; a record is an association
list in dictionary insertion order. -/

inductive PyVal where
  | none
  | str (s : String)
  | int (n : Int)
  | rat (q : Rat)
  | tup (a b : Int)
  | date (y m d : Nat)
  deriving DecidableEq

/-- Python truthiness for the modelled values. -/
def PyVal.truthy : PyVal → Bool
  | PyVal.none => false
  | PyVal.str s => s ≠ ""
  | PyVal.int n => n ≠ 0
  | PyVal.rat q => q ≠ 0
  | PyVal.tup _ _ => true
  | PyVal.date _ _ _ => true

/-- `str(v)`.  Non-integral floats render to a string that neither
`int()` nor the code paths reaching this case can parse, matching the
failure behaviour of the source on such (unreachable) inputs. -/
def pyStrOf : PyVal → String
  | PyVal.none => "None"
  | PyVal.str s => s
  | PyVal.int n => toString n
  | PyVal.rat q => if q.den = 1 then toString q.num ++ ".0" else toString q.num ++ "/" ++ toString q.den
  | PyVal.tup a b => "(" ++ toString a ++ ", " ++ toString b ++ ")"
  | PyVal.date y m d => toString y ++ "-" ++ toString m ++ "-" ++ toString d

abbrev Rec := List (String × PyVal)

/-- `d.get(k)`: `None` when the key is absent. -/
def recGet (r : Rec) (k : String) : PyVal :=
  (List.lookup k r).getD PyVal.none

/-- `a or b` on optional strings under Python truthiness. -/
def pyOr (a b : Option String) : Option String :=
  match a with
  | Option.some s => if s ≠ "" then a else b
  | Option.none => b

def optTruthyS : Option String → Bool
  | Option.some s => s ≠ ""
  | Option.none => false

def orRaise {α : Type} (o : Option α) (e : PyErr) : Except PyErr α :=
  match o with
  | Option.some a => Except.ok a
  | Option.none => Except.error e

/-! ## Numeric and date helpers shared by the decoders -/

/-- Banker's rounding to an integer, as `round()` applies to an exact
value (ties that are not ties on the binary double are outside the
modelled fragment). -/
def roundHalfEven (x : Rat) : Int :=
  let f := ⌊x⌋
  let r := ratSub x (f : Rat)
  if r < mkRat 1 2 then f
  else if mkRat 1 2 < r then f + 1
  else if f % 2 = 0 then f else f + 1

/-- `round(x, 2)`. -/
def pyRound2 (x : Rat) : Rat :=
  ratDiv (roundHalfEven (ratMul x 100) : Rat) 100

/-- Python float formatting with `:.2f`. -/
def fmt2 (x : Rat) : String :=
  let n := roundHalfEven (ratMul x 100)
  let m := n.natAbs
  let ip := m / 100
  let fp := m % 100
  (if n < 0 then "-" else "") ++ toString ip ++ "." ++
    (if fp < 10 then "0" ++ toString fp else toString fp)

/-- Little-endian decimal digits with structural fuel (so that concrete
evaluation reduces). -/
def natDigitsRev : Nat → Nat → List Nat
  | 0, _ => []
  | _, 0 => []
  | fuel + 1, n + 1 => ((n + 1) % 10) :: natDigitsRev fuel ((n + 1) / 10)

/-- `str(n)` for a natural number (Python decimal rendering). -/
def natDecimal (n : Nat) : String :=
  if n = 0 then "0"
  else ⟨((natDigitsRev n n).map (fun d => Char.ofNat (48 + d))).reverse⟩

def pad2 (n : Nat) : String :=
  if n < 10 then "0" ++ toString n else toString n

def pad4 (n : Nat) : String :=
  if n < 10 then "000" ++ toString n
  else if n < 100 then "00" ++ toString n
  else if n < 1000 then "0" ++ toString n
  else toString n

def isLeap (y : Nat) : Bool :=
  (y % 4 = 0 && y % 100 ≠ 0) || y % 400 = 0

def daysInMonth (y m : Nat) : Nat :=
  if m = 2 then (if isLeap y then 29 else 28)
  else if m = 4 ∨ m = 6 ∨ m = 9 ∨ m = 11 then 30
  else 31

/-- Components of a `datetime` value: (year, month, day, hour, minute, second). -/
abbrev DT := Nat × Nat × Nat × Nat × Nat × Nat

def validDT (dt : DT) : Bool :=
  let (y, mo, d, h, mi, s) := dt
  1 ≤ y && y ≤ 9999 && 1 ≤ mo && mo ≤ 12 && 1 ≤ d && d ≤ daysInMonth y mo &&
    h ≤ 23 && mi ≤ 59 && s ≤ 59

/-- The fixed-shape pattern `\d{4}<sep>\d{2}<sep>\d{2} \d{2}:\d{2}:\d{2}`. -/
def dtTemplate (sep : Char) : List (Char → Bool) :=
  let d := isDigitChar
  let lit := fun (x : Char) (c : Char) => c = x
  [d, d, d, d, lit sep, d, d, lit sep, d, d, lit ' ', d, d, lit ':', d, d, lit ':', d, d]

def matchesAt : List (Char → Bool) → List Char → Bool
  | [], _ => true
  | _ :: _, [] => false
  | p :: tpl, c :: cs => p c && matchesAt tpl cs

/-- `re.search` for the 19-character timestamp pattern: the leftmost
position where the fixed-shape pattern matches. -/
def findDT (sep : Char) : List Char → Option (List Char)
  | [] => Option.none
  | c :: cs =>
    if matchesAt (dtTemplate sep) (c :: cs) then Option.some ((c :: cs).take 19)
    else findDT sep cs

/-- Extract the numeric components of a matched 19-character timestamp. -/
def dtOfMatch (m : List Char) : DT :=
  (digitsToNat (m.take 4), digitsToNat ((m.drop 5).take 2), digitsToNat ((m.drop 8).take 2),
   digitsToNat ((m.drop 11).take 2), digitsToNat ((m.drop 14).take 2),
   digitsToNat ((m.drop 17).take 2))

/-- `s.replace(" UTC", "")`. -/
def stripUTC (s : String) : String :=
  s.replace " UTC" ""

/-- `s.split(" ", 1)` on a string known to contain a space. -/
def splitOnceSpace (cs : List Char) : List Char × List Char :=
  let p := cs.span (fun c => c ≠ ' ')
  (p.1, p.2.drop 1)

/-! ## Path name helpers (`pathlib` fragment) -/

def lastDotIdx (cs : List Char) : Option Nat :=
  ((cs.enum.filter (fun p => p.2 = '.')).map (fun p => p.1)).getLast?

/-- `Path.suffix`: from the last dot, provided it is neither the first
nor past the last character of the name. -/
def pySuffix (name : String) : String :=
  match lastDotIdx name.data with
  | Option.some i =>
    if 0 < i ∧ i < name.data.length - 1 then ⟨name.data.drop i⟩ else ""
  | Option.none => ""

/-- `Path.stem`. -/
def pyStem (name : String) : String :=
  match lastDotIdx name.data with
  | Option.some i =>
    if 0 < i ∧ i < name.data.length - 1 then ⟨name.data.take i⟩ else name
  | Option.none => name

def pySuffixLower (name : String) : String :=
  pyLower (pySuffix name)

/-- `file_name.rsplit(".", 1)[0]`. -/
def pyNameNoExt (name : String) : String :=
  match lastDotIdx name.data with
  | Option.some i => ⟨name.data.take i⟩
  | Option.none => name

def joinPath (dir : List String) : String :=
  String.intercalate "/" dir

/-! ## File objects and metadata-reader oracles

A `PyFile` is a filesystem entry together with the outcome of every
external read the decoders may perform on it.  `Option.none` on an
oracle field means that the corresponding library call raises. -/

structure RawTags where
  dateTimeOriginal : Option String := Option.none
  model : Option String := Option.none
  lensModel : Option String := Option.none
  focalLength : Option String := Option.none
  fNumber : Option String := Option.none
  iso : Option String := Option.none
  exposureTime : Option String := Option.none
  imageWidth : Option String := Option.none
  imageLength : Option String := Option.none
  deriving DecidableEq

structure ExifBlob where
  model : Option String := Option.none
  dateTimeOriginal : Option String := Option.none
  lensModel : Option String := Option.none
  focalLength : PyVal := PyVal.none
  fNumber : PyVal := PyVal.none
  iso : PyVal := PyVal.none
  exposureTime : PyVal := PyVal.none
  deriving DecidableEq

structure Track where
  track_type : String
  duration : PyVal := PyVal.none
  tagged_date : Option String := Option.none
  encoded_date : Option String := Option.none
  width : PyVal := PyVal.none
  height : PyVal := PyVal.none
  format : PyVal := PyVal.none
  frame_rate : PyVal := PyVal.none
  model : Option String := Option.none
  writing_library : Option String := Option.none
  encoded_library_name : Option String := Option.none
  lens_model : Option String := Option.none
  focal_length : Option String := Option.none
  f_number : Option String := Option.none
  iso : Option String := Option.none
  exposure_time : Option String := Option.none
  deriving DecidableEq

structure PILExif where
  dateTimeOriginal : Option String := Option.none
  model : Option String := Option.none
  lensModel : Option String := Option.none
  deriving DecidableEq

structure PyFile where
  dir : List String := []
  fname : String
  isDir : Bool := false
  statSize : Option Nat := Option.some 0
  content : Nat := 0
  fmtime : Int := 0
  mtimeDate : Option (Nat × Nat × Nat) := Option.none
  pilImage : Option (Nat × Nat × Bool) := Option.none
  exifEmbedded : Option ExifBlob := Option.none
  exifFromFile : Option ExifBlob := Option.none
  rawTags : Option RawTags := Option.none
  mediaTracks : Option (List Track) := Option.none
  pilMeta : Option PILExif := Option.none
  copyOk : Bool := true
  deriving DecidableEq

/-! ## `analysis.py` decoders -/

/-- `_decode_if_bytes` applied to an optional decoded tag value. -/
def _decode_if_bytes : Option String → PyVal
  | Option.none => PyVal.none
  | Option.some s => PyVal.str s

/-- `analysis._rational_to_float`: a two-element tuple with nonzero
denominator becomes its quotient; anything else passes through. -/
def _rational_to_float : PyVal → PyVal
  | PyVal.tup a b => if b ≠ 0 then PyVal.rat (ratDiv (a : Rat) (b : Rat)) else PyVal.tup a b
  | v => v

/-- `analysis._format_shutter`. -/
def _format_shutter : PyVal → PyVal
  | PyVal.tup a b =>
    if b ≠ 0 then
      if a > b then PyVal.str (fmt2 (ratDiv (a : Rat) (b : Rat)) ++ "s")
      else PyVal.str (toString a ++ "/" ++ toString b ++ "s")
    else PyVal.tup a b
  | v => v

/-- Split a `YYYY:MM:DD HH:MM:SS`-like value into date and time parts,
as done by the `date_taken_full and " " in date_taken_full` block. -/
def splitDateTaken (full : PyVal) : PyVal × PyVal :=
  match full with
  | PyVal.str s =>
    if s ≠ "" ∧ s.data.contains ' ' then
      let p := splitOnceSpace s.data
      (PyVal.str ⟨p.1⟩, PyVal.str ⟨p.2⟩)
    else if s ≠ "" then (PyVal.str s, PyVal.none)
    else (PyVal.none, PyVal.none)
  | _ => (PyVal.none, PyVal.none)

def analyze_other_body (f : PyFile) : Except PyErr Rec := do
  let size ← orRaise f.statSize PyErr.osError
  pure [("name", PyVal.str (pyNameNoExt f.fname)),
        ("filetype", PyVal.str (pySuffixLower f.fname)),
        ("directory", PyVal.str (joinPath f.dir)),
        ("size_bytes", PyVal.int size),
        ("size_mb", PyVal.rat (pyRound2 (ratDiv (size : Rat) 1048576)))]

def analyze_other (f : PyFile) : Option Rec :=
  (analyze_other_body f).toOption

/-- State accumulated by the track loop of `analyze_video`. -/
structure VideoScan where
  duration : PyVal := PyVal.none
  width : PyVal := PyVal.none
  height : PyVal := PyVal.none
  date_taken : PyVal := PyVal.none
  time_taken : PyVal := PyVal.none
  codec : PyVal := PyVal.none
  frame_rate : PyVal := PyVal.none

def videoTrackStep (st : VideoScan) (t : Track) : Except PyErr VideoScan :=
  if t.track_type = "General" then do
    let st := { st with duration := t.duration }
    let creation := pyOr t.tagged_date t.encoded_date
    if optTruthyS creation then
      let cd := stripUTC (creation.getD "")
      match findDT '-' cd.data with
      | Option.some m =>
        let dt := dtOfMatch m
        if validDT dt then
          pure { st with
            date_taken := PyVal.str (pad4 dt.1 ++ ":" ++ pad2 dt.2.1 ++ ":" ++ pad2 dt.2.2.1),
            time_taken := PyVal.str (pad2 dt.2.2.2.1 ++ ":" ++ pad2 dt.2.2.2.2.1 ++ ":" ++
              pad2 dt.2.2.2.2.2) }
        else throw PyErr.valueError
      | Option.none => pure st
    else
      pure st
  else if t.track_type = "Video" then
    pure { st with width := t.width, height := t.height, codec := t.format,
                   frame_rate := t.frame_rate }
  else
    pure st

def analyze_video_body (f : PyFile) : Except PyErr Rec := do
  let size ← orRaise f.statSize PyErr.osError
  let tracks ← orRaise f.mediaTracks PyErr.osError
  let st ← tracks.foldlM videoTrackStep {}
  pure [("name", PyVal.str (pyNameNoExt f.fname)),
        ("filetype", PyVal.str (pySuffixLower f.fname)),
        ("directory", PyVal.str (joinPath f.dir)),
        ("date_taken", st.date_taken),
        ("time_taken", st.time_taken),
        ("size_bytes", PyVal.int size),
        ("size_mb", PyVal.rat (pyRound2 (ratDiv (size : Rat) 1048576))),
        ("width", st.width),
        ("height", st.height),
        ("duration_ms", st.duration),
        ("codec", st.codec),
        ("frame_rate", st.frame_rate)]

def analyze_video (f : PyFile) : Option Rec :=
  (analyze_video_body f).toOption

def standardImageExts : List String := [".jpg", ".jpeg", ".png", ".webp"]

def analyze_standard_image_body (f : PyFile) : Except PyErr Rec := do
  let filetype := pySuffixLower f.fname
  if filetype ∉ standardImageExts then throw PyErr.valueError
  let size ← orRaise f.statSize PyErr.osError
  let (width, height, hasBlob) ← orRaise f.pilImage PyErr.osError
  let exif ←
    if hasBlob then orRaise f.exifEmbedded PyErr.valueError
    else pure (f.exifFromFile.getD {})
  let full := _decode_if_bytes exif.dateTimeOriginal
  let dtPair := splitDateTaken full
  pure [("name", PyVal.str (pyNameNoExt f.fname)),
        ("filetype", PyVal.str filetype),
        ("directory", PyVal.str (joinPath f.dir)),
        ("date_taken", dtPair.1),
        ("time_taken", dtPair.2),
        ("camera", _decode_if_bytes exif.model),
        ("lens", _decode_if_bytes exif.lensModel),
        ("focal_length", _rational_to_float exif.focalLength),
        ("aperture", _rational_to_float exif.fNumber),
        ("iso", exif.iso),
        ("shutter_speed", _format_shutter exif.exposureTime),
        ("size_bytes", PyVal.int size),
        ("size_mb", PyVal.rat (pyRound2 (ratDiv (size : Rat) 1048576))),
        ("width", PyVal.int width),
        ("height", PyVal.int height)]

def analyze_standard_image (f : PyFile) : Option Rec :=
  (analyze_standard_image_body f).toOption

/-- `analyze_raw`'s inner `_to_float`: `float(str(v))` with
`ValueError`/`TypeError` absorbed to `None`. -/
def rawToFloat : PyVal → PyVal
  | PyVal.none => PyVal.none
  | v =>
    match pyFloat? (pyStrOf v) with
    | Option.some q => PyVal.rat q
    | Option.none => PyVal.none

/-- `int(str(v))`, raising `ValueError` when unparsable. -/
def pyIntOfVal (v : PyVal) : Except PyErr Int :=
  match pyInt? (pyStrOf v) with
  | Option.some n => Except.ok n
  | Option.none => Except.error PyErr.valueError

/-- State accumulated by the CR3 track loop of `analysis.analyze_raw`. -/
structure RawScan where
  camera : PyVal := PyVal.none
  lens : PyVal := PyVal.none
  date_taken : PyVal := PyVal.none
  time_taken : PyVal := PyVal.none
  iso : PyVal := PyVal.none
  shutter_speed : PyVal := PyVal.none
  aperture : PyVal := PyVal.none
  focal_length : PyVal := PyVal.none
  width : PyVal := PyVal.none
  height : PyVal := PyVal.none

def rawCr3TrackStep (st : RawScan) (t : Track) : Except PyErr RawScan :=
  if t.track_type = "General" then do
    let st := { st with
      camera := _decode_if_bytes (pyOr (pyOr t.model t.writing_library) t.encoded_library_name),
      lens := _decode_if_bytes t.lens_model }
    let full := pyOr t.tagged_date t.encoded_date
    if optTruthyS full then
      let cd := stripUTC (full.getD "")
      match findDT '-' cd.data with
      | Option.some m =>
        let dt := dtOfMatch m
        if validDT dt then
          pure { st with
            date_taken := PyVal.str (pad4 dt.1 ++ ":" ++ pad2 dt.2.1 ++ ":" ++ pad2 dt.2.2.1),
            time_taken := PyVal.str (pad2 dt.2.2.2.1 ++ ":" ++ pad2 dt.2.2.2.2.1 ++ ":" ++
              pad2 dt.2.2.2.2.2) }
        else throw PyErr.valueError
      | Option.none => pure st
    else pure st
  else if t.track_type = "Video" then
    pure { st with width := t.width, height := t.height,
                   focal_length := _decode_if_bytes t.focal_length,
                   aperture := _decode_if_bytes t.f_number,
                   iso := _decode_if_bytes t.iso,
                   shutter_speed := _decode_if_bytes t.exposure_time }
  else pure st

def rawExts : List String := [".cr2", ".cr3"]

/-- `analysis.analyze_raw`.  Unlike its sibling decoders the source has
no enclosing `try`/`except`, so every internal failure escapes as
`Except.error`. -/
def analyze_raw (f : PyFile) : Except PyErr Rec := do
  let filetype := pySuffixLower f.fname
  if filetype ∉ rawExts then throw PyErr.valueError
  let size ← orRaise f.statSize PyErr.osError
  let tags ← orRaise f.rawTags PyErr.osError
  let st ←
    if filetype = ".cr2" then do
      let dtPair := splitDateTaken (_decode_if_bytes tags.dateTimeOriginal)
      let width ←
        match tags.imageWidth with
        | Option.some w => (pyIntOfVal (PyVal.str w)).map PyVal.int
        | Option.none => pure PyVal.none
      let height ←
        match tags.imageLength with
        | Option.some h => (pyIntOfVal (PyVal.str h)).map PyVal.int
        | Option.none => pure PyVal.none
      pure { camera := _decode_if_bytes tags.model,
             lens := _decode_if_bytes tags.lensModel,
             date_taken := dtPair.1, time_taken := dtPair.2,
             iso := _decode_if_bytes tags.iso,
             shutter_speed := _decode_if_bytes tags.exposureTime,
             aperture := _rational_to_float (_decode_if_bytes tags.fNumber),
             focal_length := _rational_to_float (_decode_if_bytes tags.focalLength),
             width := width, height := height : RawScan }
    else do
      let tracks ← orRaise f.mediaTracks PyErr.osError
      tracks.foldlM rawCr3TrackStep {}
  let isoVal ←
    if st.iso.truthy then (pyIntOfVal st.iso).map PyVal.int else pure PyVal.none
  let widthVal ←
    if st.width ≠ PyVal.none then (pyIntOfVal st.width).map PyVal.int else pure PyVal.none
  let heightVal ←
    if st.height ≠ PyVal.none then (pyIntOfVal st.height).map PyVal.int else pure PyVal.none
  pure [("name", PyVal.str (pyNameNoExt f.fname)),
        ("filetype", PyVal.str filetype),
        ("directory", PyVal.str (joinPath f.dir)),
        ("date_taken", st.date_taken),
        ("time_taken", st.time_taken),
        ("camera", st.camera),
        ("lens", st.lens),
        ("focal_length", if st.focal_length ≠ PyVal.none then rawToFloat st.focal_length else PyVal.none),
        ("aperture", if st.aperture ≠ PyVal.none then rawToFloat st.aperture else PyVal.none),
        ("iso", isoVal),
        ("shutter_speed", if st.shutter_speed ≠ PyVal.none
                          then PyVal.str (pyStrOf st.shutter_speed ++ "s") else PyVal.none),
        ("size_bytes", PyVal.int size),
        ("size_mb", PyVal.rat (pyRound2 (ratDiv (size : Rat) 1048576))),
        ("width", widthVal),
        ("height", heightVal)]

/-- `analysis.analyze_image`: extension dispatch.  A raising `analyze_raw`
propagates to the caller. -/
def analyze_image (f : PyFile) : Except PyErr (Option Rec) :=
  if pySuffixLower f.fname ∈ standardImageExts then Except.ok (analyze_standard_image f)
  else if pySuffixLower f.fname ∈ rawExts then (analyze_raw f).map Option.some
  else Except.ok Option.none

/-! ## DataFrame model and `format_df`

A pandas frame is modelled by its column list and its rows (records).
`pd.DataFrame(list_of_dicts)` takes the union of the keys in insertion
order; `pd.DataFrame()` is the empty frame. -/

structure DataFrame where
  cols : List String
  rows : List Rec
  deriving DecidableEq

def colsUnion (rs : List Rec) : List String :=
  rs.foldl (fun acc r => acc ++ ((r.map Prod.fst).filter (fun k => k ∉ acc))) []

def DataFrame.ofRecords (rs : List Rec) : DataFrame :=
  ⟨colsUnion rs, rs⟩

def DataFrame.emptyFrame : DataFrame := ⟨[], []⟩

/-- `df.empty`: true when either axis has length zero. -/
def DataFrame.isEmptyDF (df : DataFrame) : Bool :=
  df.rows.isEmpty || df.cols.isEmpty

/-- Replace the value at a key in place, or append the pair. -/
def recSet (r : Rec) (k : String) (v : PyVal) : Rec :=
  if (List.lookup k r).isSome then
    r.map (fun p => if p.1 = k then (k, v) else p)
  else r ++ [(k, v)]

def recDrop (r : Rec) (k : String) : Rec :=
  r.filter (fun p => p.1 ≠ k)

/-- Elementwise cell map, `df.map`. -/
def DataFrame.mapCells (f : PyVal → PyVal) (df : DataFrame) : DataFrame :=
  ⟨df.cols, df.rows.map (fun r => r.map (fun p => (p.1, f p.2)))⟩

/-- Column assignment `df[k] = g(row)`. -/
def DataFrame.setCol (df : DataFrame) (k : String) (g : Rec → PyVal) : DataFrame :=
  ⟨if k ∈ df.cols then df.cols else df.cols ++ [k],
   df.rows.map (fun r => recSet r k (g r))⟩

def DataFrame.dropCol (df : DataFrame) (k : String) : DataFrame :=
  ⟨df.cols.filter (fun c => c ≠ k), df.rows.map (fun r => recDrop r k)⟩

def DataFrame.mapCol (df : DataFrame) (k : String) (f : PyVal → PyVal) : DataFrame :=
  ⟨df.cols, df.rows.map (fun r => recSet r k (f (recGet r k)))⟩

/-- `clean_excel_unsafe` as applied to a cell (non-strings pass through). -/
def cleanCell : PyVal → PyVal
  | PyVal.str s => PyVal.str ( clean_excel_unsafe s)
  | v => v

/-- `common.rational_to_float`: `float(r)` with all exceptions absorbed
to `None`. -/
def rational_to_float : PyVal → PyVal
  | PyVal.int n => PyVal.rat (n : Rat)
  | PyVal.rat q => PyVal.rat q
  | PyVal.str s =>
    match pyFloat? s with
    | Option.some q => PyVal.rat q
    | Option.none => PyVal.none
  | _ => PyVal.none

/-- `(df["size_bytes"] / 1048576).round(2)` on one row (the column is
always integer-valued where this is reached). -/
def sizeMBCell (r : Rec) : PyVal :=
  match recGet r "size_bytes" with
  | PyVal.int n => PyVal.rat (pyRound2 (ratDiv (n : Rat) 1048576))
  | _ => PyVal.none

def colonDateTemplate : List (Char → Bool) :=
  let d := isDigitChar
  let lit := fun (x : Char) (c : Char) => c = x
  [d, d, d, d, lit ':', d, d, lit ':', d, d]

def validDateOnly (y mo d : Nat) : Bool :=
  1 ≤ y && y ≤ 9999 && 1 ≤ mo && mo ≤ 12 && 1 ≤ d && d ≤ daysInMonth y mo

/-- `pd.to_datetime(col, errors="coerce", format="%Y:%m:%d").dt.date`:
a cell parses only when the whole string matches the format and is a
valid calendar date; everything else coerces to missing. -/
def parseDateCell : PyVal → PyVal
  | PyVal.str s =>
    if s.data.length = 10 ∧ matchesAt colonDateTemplate s.data then
      let y := digitsToNat (s.data.take 4)
      let mo := digitsToNat ((s.data.drop 5).take 2)
      let d := digitsToNat ((s.data.drop 8).take 2)
      if validDateOnly y mo d then PyVal.date y mo d else PyVal.none
    else PyVal.none
  | _ => PyVal.none

def imageCols : List String :=
  ["name", "filetype", "directory", "date_taken", "time_taken", "camera", "lens",
   "focal_length", "aperture", "iso", "shutter_speed", "size_bytes", "size (MB)",
   "width", "height"]

def videoCols : List String :=
  ["name", "filetype", "directory", "date_taken", "time_taken", "size_bytes",
   "size (MB)", "width", "height", "duration_ms", "codec", "frame_rate"]

def otherCols : List String :=
  ["name", "filetype", "directory", "size_bytes", "size (MB)"]

/-- `analysis.analyze_directories.format_df`. -/
def format_df (df : DataFrame) (type_name : String) : DataFrame :=
  if df.isEmptyDF then
    if type_name = "image" then ⟨imageCols, []⟩
    else if type_name = "video" then ⟨videoCols, []⟩
    else ⟨otherCols, []⟩
  else
    let df := df.mapCells cleanCell
    let df := if "size_bytes" ∈ df.cols then df.setCol "size (MB)" sizeMBCell else df
    let df := if "size_mb" ∈ df.cols then df.dropCol "size_mb" else df
    if type_name = "image" then
      let df := if "aperture" ∈ df.cols then df.mapCol "aperture" rational_to_float else df
      let df := if "focal_length" ∈ df.cols then df.mapCol "focal_length" rational_to_float else df
      if "date_taken" ∈ df.cols then df.mapCol "date_taken" parseDateCell else df
    else df

/-- The three tables returned on the early-exit paths of
`analyze_directories` (stop observed, or no files found). -/
def emptyTables : DataFrame × DataFrame × DataFrame :=
  (format_df DataFrame.emptyFrame "image", format_df DataFrame.emptyFrame "video",
   format_df DataFrame.emptyFrame "other")

/-- Final aggregation of `analyze_directories`. -/
def buildTables (imgs vids oths : List Rec) : DataFrame × DataFrame × DataFrame :=
  (format_df (DataFrame.ofRecords imgs) "image",
   format_df (DataFrame.ofRecords vids) "video",
   format_df (DataFrame.ofRecords oths) "other")

/-! ## Cooperative control plane

`Ctl` gives the values read by the k-th poll of the stop and pause
events; polls are numbered globally through a run.  The pause busy-wait
is fuelled: `Option.none` models a pause that never clears. -/

structure Ctl where
  stop : Nat → Bool
  pause : Nat → Bool

/-- The inner `while pause_event.is_set(): if stop...: ...; wait(0.1)`
loop.  Returns the next poll index, whether stop was observed, and how
many stop polls were made inside the wait. -/
def pauseWait (c : Ctl) : Nat → Nat → Option (Nat × Bool × Nat)
  | 0, _ => Option.none
  | fuel + 1, t =>
    if c.pause t then
      if c.stop (t + 1) then Option.some (t + 2, true, 1)
      else
        match pauseWait c fuel (t + 2) with
        | Option.some (t2, st, n) => Option.some (t2, st, n + 1)
        | Option.none => Option.none
    else Option.some (t + 1, false, 0)

/-! ## `analysis.analyze_directories` -/

def imageExtsAnalysis : List String := [".jpg", ".jpeg", ".png", ".webp", ".cr2", ".cr3"]

def videoExts : List String := [".mp4", ".mov", ".avi", ".mkv", ".m4v", ".3gp", ".gif"]

/-- The nested `_analyze_any` dispatcher. -/
def _analyze_any (f : PyFile) : String × Except PyErr (Option Rec) :=
  let ext := pySuffixLower f.fname
  if ext ∈ imageExtsAnalysis then ("image", analyze_image f)
  else if ext ∈ videoExts then ("video", Except.ok (analyze_video f))
  else ("other", Except.ok (analyze_other f))

inductive WalkOut where
  | stopped (t checks dirs : Nat)
  | complete (files : List PyFile) (t checks dirs : Nat)

/-- The enumeration loop: one iteration per directory yielded by
`os.walk` across all the roots, with a stop poll and a pause block at
the head of each iteration. -/
def walkLoop (c : Ctl) (fuel : Nat) :
    List (List PyFile) → Nat → Nat → Nat → List PyFile → Option WalkOut
  | [], t, checks, dirs, acc => Option.some (WalkOut.complete acc t checks dirs)
  | d :: rest, t, checks, dirs, acc =>
    if c.stop t then Option.some (WalkOut.stopped (t + 1) (checks + 1) (dirs + 1))
    else
      match pauseWait c fuel (t + 1) with
      | Option.none => Option.none
      | Option.some (t2, stoppedInPause, n) =>
        if stoppedInPause then Option.some (WalkOut.stopped t2 (checks + 1 + n) (dirs + 1))
        else walkLoop c fuel rest t2 (checks + 1 + n) (dirs + 1) (acc ++ d)

inductive AggOut where
  | stopped (t checks tasks : Nat) (progress : List Rat)
  | raised (e : PyErr) (t checks tasks : Nat) (progress : List Rat)
  | complete (imgs vids oths : List Rec) (t checks tasks : Nat) (progress : List Rat)

def AggOut.progressOf : AggOut → List Rat
  | AggOut.stopped _ _ _ p => p
  | AggOut.raised _ _ _ _ p => p
  | AggOut.complete _ _ _ _ _ _ p => p

/-- Prepend one reported fraction to the trace of an aggregation
outcome (the per-iteration progress call). -/
def AggOut.consProgress (frac : Rat) : AggOut → AggOut
  | AggOut.stopped t c k p => AggOut.stopped t c k (frac :: p)
  | AggOut.raised e t c k p => AggOut.raised e t c k (frac :: p)
  | AggOut.complete a b d t c k p => AggOut.complete a b d t c k (frac :: p)

/-- The `as_completed` collection loop: one iteration per completed
decode task; `future.result()` re-raises a decoder exception. -/
def aggLoop (c : Ctl) (fuel total : Nat) :
    List (String × Except PyErr (Option Rec)) → Nat → Nat → Nat → Nat →
    List Rec → List Rec → List Rec → Option AggOut
  | [], _, t, checks, tasks, imgs, vids, oths =>
    Option.some (AggOut.complete imgs vids oths t checks tasks [])
  | (category, res) :: rest, i, t, checks, tasks, imgs, vids, oths =>
    if c.stop t then Option.some (AggOut.stopped (t + 1) (checks + 1) (tasks + 1) [])
    else
      match pauseWait c fuel (t + 1) with
      | Option.none => Option.none
      | Option.some (t2, stoppedInPause, n) =>
        if stoppedInPause then
          Option.some (AggOut.stopped t2 (checks + 1 + n) (tasks + 1) [])
        else
          match res with
          | Except.error e => Option.some (AggOut.raised e t2 (checks + 1 + n) (tasks + 1) [])
          | Except.ok result =>
            let keep := match result with
              | Option.some r => r ≠ []
              | Option.none => false
            let imgs := if keep && category == "image" then imgs ++ [result.getD []] else imgs
            let vids := if keep && category == "video" then vids ++ [result.getD []] else vids
            let oths := if keep && category != "image" && category != "video"
                        then oths ++ [result.getD []] else oths
            (aggLoop c fuel total rest (i + 1) t2 (checks + 1 + n) (tasks + 1)
                imgs vids oths).map
              (AggOut.consProgress (ratDiv ((i + 1 : Nat) : Rat) (total : Rat)))

structure AnalysisOut where
  result : Except PyErr (DataFrame × DataFrame × DataFrame)
  progress : List Rat
  checks : Nat
  dirs : Nat
  tasks : Nat

/-- `analysis.analyze_directories`.  `roots` lists, for each input path,
the directories yielded by `os.walk` (each a list of the files found in
it); `order` is the completion order of the thread pool, as positions
into the list of submitted files. -/
def analyze_directories (roots : List (List (List PyFile))) (c : Ctl) (order : List Nat)
    (fuel : Nat) : Option AnalysisOut :=
  match walkLoop c fuel roots.flatten 0 0 0 [] with
  | Option.none => Option.none
  | Option.some (WalkOut.stopped _ checks dirs) =>
    Option.some ⟨Except.ok emptyTables, [], checks, dirs, 0⟩
  | Option.some (WalkOut.complete files t checks dirs) =>
    let total := files.length
    if total = 0 then Option.some ⟨Except.ok emptyTables, [], checks, dirs, 0⟩
    else
      let completed := order.filterMap (fun j => files[j]?)
      match aggLoop c fuel total (completed.map _analyze_any) 0 t 0 0 [] [] [] with
      | Option.none => Option.none
      | Option.some (AggOut.stopped _ checks2 tasks prog) =>
        Option.some ⟨Except.ok emptyTables, prog, checks + checks2, dirs, tasks⟩
      | Option.some (AggOut.raised e _ checks2 tasks prog) =>
        Option.some ⟨Except.error e, prog, checks + checks2, dirs, tasks⟩
      | Option.some (AggOut.complete imgs vids oths _ checks2 tasks prog) =>
        Option.some ⟨Except.ok (buildTables imgs vids oths), prog, checks + checks2, dirs, tasks⟩

/-! ## `generate.py`: reorganization engine -/

inductive ConflictPolicy where
  | rename
  | skip
  deriving DecidableEq, BEq

structure Options where
  by_media_type : Bool := true
  structure_ : List String := ["Year", "Month"]
  verbose : Bool := true
  on_exist : ConflictPolicy := ConflictPolicy.rename
  deriving DecidableEq

/-- `strptime(s, "%Y:%m:%d")` restricted to the zero-padded form the
EXIF sources emit. -/
def parseColonDate10 (s : String) : Option (Nat × Nat × Nat) :=
  if s.data.length = 10 ∧ matchesAt colonDateTemplate s.data then
    let y := digitsToNat (s.data.take 4)
    let mo := digitsToNat ((s.data.drop 5).take 2)
    let d := digitsToNat ((s.data.drop 8).take 2)
    if validDateOnly y mo d then Option.some (y, mo, d) else Option.none
  else Option.none

/-- The metadata dictionaries handed to the structure-dimension loop:
keys `Year`/`Month`/`Model`/`Lens` (images) or `Year`/`Month` (videos),
each value optional. -/
abbrev MetaDict := List (String × Option String)

def mdGet (md : MetaDict) (k : String) : Option String :=
  (List.lookup k md).getD Option.none

/-- `generate._get_image_metadata`.  The PIL read and the MediaInfo
fallback are oracle fields; a strptime failure inside the MediaInfo
`try` leaves the fields assigned before it and skips the rest. -/
def _get_image_metadata (f : PyFile) : Option MetaDict :=
  let st : Option (Nat × Nat × Nat) × Option String × Option String :=
    match f.pilMeta with
    | Option.none => (Option.none, Option.none, Option.none)
    | Option.some e =>
      let date :=
        match e.dateTimeOriginal with
        | Option.some ds =>
          if ds ≠ "" then parseColonDate10 ⟨(splitOnceSpace ds.data).1⟩ else Option.none
        | Option.none => Option.none
      (date, e.model, e.lensModel)
  let (date, model, lens) := st
  let (date, model, lens) :=
    if (date.isNone ∨ ¬ optTruthyS model) ∧ pySuffixLower f.fname ∈ rawExts then
      match f.mediaTracks with
      | Option.none => (date, model, lens)
      | Option.some tracks =>
        match tracks.find? (fun t => t.track_type = "General") with
        | Option.none => (date, model, lens)
        | Option.some tr =>
          let creation := pyOr tr.tagged_date tr.encoded_date
          if date.isNone then
            if optTruthyS creation then
              match findDT '-' (stripUTC (creation.getD "")).data with
              | Option.some m =>
                let dt := dtOfMatch m
                if validDT dt then
                  let date := Option.some (dt.1, dt.2.1, dt.2.2.1)
                  let model := if ¬ optTruthyS model then tr.model else model
                  let lens := if ¬ optTruthyS lens then tr.lens_model else lens
                  (date, model, lens)
                else (date, model, lens)
              | Option.none =>
                let model := if ¬ optTruthyS model then tr.model else model
                let lens := if ¬ optTruthyS lens then tr.lens_model else lens
                (date, model, lens)
            else
              let model := if ¬ optTruthyS model then tr.model else model
              let lens := if ¬ optTruthyS lens then tr.lens_model else lens
              (date, model, lens)
          else
            let model := if ¬ optTruthyS model then tr.model else model
            let lens := if ¬ optTruthyS lens then tr.lens_model else lens
            (date, model, lens)
    else (date, model, lens)
  if date.isSome ∨ optTruthyS model ∨ optTruthyS lens then
    Option.some
      [("Year", date.map (fun d => pad4 d.1)),
       ("Month", date.map (fun d => pad2 d.2.1)),
       ("Model", if optTruthyS model then sanitize_folder_name model else Option.none),
       ("Lens", if optTruthyS lens then sanitize_folder_name lens else Option.none)]
  else Option.none

/-- `generate._get_video_metadata`.  A MediaInfo or strptime failure is
caught by the enclosing `try` and yields `None`. -/
def _get_video_metadata (f : PyFile) : Option MetaDict :=
  match f.mediaTracks with
  | Option.none => Option.none
  | Option.some tracks =>
    let creation :=
      match tracks.find? (fun t => t.track_type = "General") with
      | Option.some tr => pyOr tr.tagged_date tr.encoded_date
      | Option.none => Option.none
    let dateRes : Except Unit (Option (Nat × Nat × Nat)) :=
      match creation with
      | Option.some cs =>
        if cs ≠ "" then
          match findDT '-' cs.data with
          | Option.some m =>
            let dt := dtOfMatch m
            if validDT dt then Except.ok (Option.some (dt.1, dt.2.1, dt.2.2.1))
            else Except.error ()
          | Option.none => Except.ok Option.none
        else Except.ok Option.none
      | Option.none => Except.ok Option.none
    match dateRes with
    | Except.error _ => Option.none
    | Except.ok date =>
      Option.some
        [("Year", date.map (fun d => pad4 d.1)),
         ("Month", date.map (fun d => pad2 d.2.1))]

def imageExtsOrganize : List String :=
  [".jpg", ".jpeg", ".png", ".cr2", ".nef", ".tiff", ".arw", ".cr3"]

/-- The target-directory derivation of `_process_single_file` (its first
`try` block): media-type bucket, then one folder per configured
structure dimension, `"No Info"` standing in per unresolved dimension. -/
def targetDirFor (f : PyFile) (output : List String) (o : Options) : List String :=
  let suffix := pySuffixLower f.fname
  let is_image := suffix ∈ imageExtsOrganize
  let is_video := suffix ∈ videoExts
  let base :=
    if o.by_media_type ∧ (is_image ∨ is_video) then
      output ++ [if is_image then "Photos" else "Videos"]
    else output
  if is_image then
    match _get_image_metadata f with
    | Option.none => base ++ ["No Info"]
    | Option.some md =>
      o.structure_.foldl (fun acc arg => acc ++ [(mdGet md arg).getD "No Info"]) base
  else if is_video then
    match _get_video_metadata f with
    | Option.none => base ++ ["No Info"]
    | Option.some md =>
      if o.structure_ = [] then base ++ ["No Info"]
      else o.structure_.foldl (fun acc arg => acc ++ [(mdGet md arg).getD "No Info"]) base
  else base ++ ["No Info"]

/-! ### Filesystem state -/

structure FSState where
  files : List (List String × Nat × Int) := []
  dirs : List (List String) := []
  deriving DecidableEq

def fileExists (fs : FSState) (p : List String) : Bool :=
  fs.files.any (fun e => e.1 = p)

def fsLookup (fs : FSState) (p : List String) : Option (Nat × Int) :=
  (fs.files.find? (fun e => e.1 = p)).map (fun e => e.2)

/-- `target_dir.mkdir(parents=True, exist_ok=True)`. -/
def mkdirParents (fs : FSState) (p : List String) : FSState :=
  { fs with dirs :=
      fs.dirs ++ (((List.range p.length).map (fun i => p.take (i + 1))).filter
        (fun q => q ∉ fs.dirs)) }

inductive CopyStatus where
  | copied
  | skippedStatus
  | errorStatus
  deriving DecidableEq

def renameCandidate (target : List String) (stem sfx : String) (k : Nat) : List String :=
  target ++ [stem ++ "_" ++ natDecimal k ++ sfx]

/-- The `while destination.exists()` renaming loop, fuelled by one more
than the number of existing files (the candidates are pairwise distinct,
so that much fuel always suffices). -/
def renameLoop (fs : FSState) (target : List String) (stem sfx : String) :
    Nat → Nat → List String
  | counter, 0 => renameCandidate target stem sfx counter
  | counter, fuel + 1 =>
    let cand := renameCandidate target stem sfx counter
    if fileExists fs cand then renameLoop fs target stem sfx (counter + 1) fuel else cand

/-- `generate._process_single_file` (second `try` block; a failing
`shutil.copy2` is the `copyOk` oracle and produces status `error`). -/
def _process_single_file (f : PyFile) (output : List String) (o : Options) (fs : FSState) :
    CopyStatus × FSState :=
  let target := targetDirFor f output o
  let fs := mkdirParents fs target
  let dest := target ++ [f.fname]
  if o.on_exist == ConflictPolicy.skip && fileExists fs dest then
    (CopyStatus.skippedStatus, fs)
  else
    let dest :=
      if o.on_exist == ConflictPolicy.rename && fileExists fs dest then
        renameLoop fs target (pyStem f.fname) (pySuffix f.fname) 1 (fs.files.length + 1)
      else dest
    if f.copyOk then
      (CopyStatus.copied, { fs with files := (dest, f.content, f.fmtime) :: fs.files })
    else (CopyStatus.errorStatus, fs)

/-! ### The per-file batch loops -/

structure OrgLoopOut where
  fs : FSState
  copied : Nat
  excluded : List PyFile
  progress : List Rat
  checks : Nat
  t : Nat

/-- Shared body of `generated_directory` / `generated_directory_from_list`:
stop poll, pause block with its trailing stop poll, process one file,
then one progress report. -/
def orgLoop (c : Ctl) (fuel total : Nat) (output : List String) (o : Options) :
    List PyFile → Nat → Nat → Nat → FSState → Nat → List PyFile → Option OrgLoopOut
  | [], _, t, checks, fs, copiedN, excl =>
    Option.some ⟨fs, copiedN, excl, [], checks, t⟩
  | f :: rest, i, t, checks, fs, copiedN, excl =>
    if c.stop t then Option.some ⟨fs, copiedN, excl, [], checks + 1, t + 1⟩
    else
      match pauseWait c fuel (t + 1) with
      | Option.none => Option.none
      | Option.some (t2, _, n) =>
        if c.stop t2 then Option.some ⟨fs, copiedN, excl, [], checks + 2 + n, t2 + 1⟩
        else
          let (status, fs) := _process_single_file f output o fs
          let copiedN := if status = CopyStatus.copied then copiedN + 1 else copiedN
          let excl := if status = CopyStatus.copied then excl else excl ++ [f]
          (orgLoop c fuel total output o rest (i + 1) (t2 + 1) (checks + 2 + n)
              fs copiedN excl).map
            (fun out => { out with
              progress := ratDiv ((i + 1 : Nat) : Rat) (total : Rat) :: out.progress })

structure OrgOut where
  fs : FSState
  copied : Nat
  excluded : List PyFile
  progress : List Rat
  reportEmitted : Bool
  logWritten : Bool
  checks : Nat
  t : Nat

/-- `generate._final_report`: emits the summary and, when any file was
excluded, writes the timestamped exclusion log. -/
def _final_report (out : OrgLoopOut) : OrgOut :=
  ⟨out.fs, out.copied, out.excluded, out.progress, true, out.excluded ≠ [], out.checks, out.t⟩

/-- `generate.generated_directory_from_list` (`t0` is the index of the
first control poll, letting a caller thread its poll clock through). -/
def generated_directory_from_list (files : List PyFile) (output : List String) (o : Options)
    (c : Ctl) (fuel t0 : Nat) (fs : FSState) : Option OrgOut :=
  let all_files := files.filter (fun f => !f.isDir)
  let total := all_files.length
  if total = 0 then Option.some ⟨fs, 0, [], [], false, false, 0, t0⟩
  else
    match orgLoop c fuel total output o all_files 0 t0 0 fs 0 [] with
    | Option.none => Option.none
    | Option.some out => Option.some (_final_report out)

/-- `generate.generated_directory`: enumerate each root recursively
(`rglob`, one file list per root), keep non-directories, then run the
same batch loop and report. -/
def generated_directory (roots : List (List PyFile)) (output : List String) (o : Options)
    (c : Ctl) (fuel : Nat) (fs : FSState) : Option OrgOut :=
  let all_files := roots.flatten.filter (fun f => !f.isDir)
  let total := all_files.length
  if total = 0 then Option.some ⟨fs, 0, [], [], false, false, 0, 0⟩
  else
    match orgLoop c fuel total output o all_files 0 0 0 fs 0 [] with
    | Option.none => Option.none
    | Option.some out => Option.some (_final_report out)

/-- Modelled from the spec: `organize_files_by_options` is imported by
`filtering.py` from `gallery_inspector.generate` but absent from the
sources; per the reorganization-engine contract it processes the given
file list exactly as the in-repo batch organizer does (one unit of work
per non-directory file, progress `completed/total`, same conflict
handling and final report). -/
def organize_files_by_options (files : List PyFile) (output : List String) (o : Options)
    (c : Ctl) (fuel t0 : Nat) (fs : FSState) : Option OrgOut :=
  generated_directory_from_list files output o c fuel t0 fs

/-! ## `filtering.py` -/

structure FilterOptions where
  filetypes : Option (List String) := Option.none
  extensions : Option (List String) := Option.none
  date_range : Option (Option (Nat × Nat × Nat) × Option (Nat × Nat × Nat)) := Option.none
  cameras : Option (List String) := Option.none
  lenses : Option (List String) := Option.none
  aperture_range : Option (Option Rat × Option Rat) := Option.none
  iso_range : Option (Option Int × Option Int) := Option.none
  shutter_speed_range : Option (Option String × Option String) := Option.none

/-- Python truthiness of an optional list (both `None` and `[]` are falsy). -/
def optListTruthy {α : Type} : Option (List α) → Bool
  | Option.some l => !l.isEmpty
  | Option.none => false

/-- Modelled from the spec: `analyze_any` is imported by `filtering.py`
from `gallery_inspector.analysis` but only its nested counterpart
`_analyze_any` appears in the sources; per the decoder-dispatch contract
it classifies by lowercased extension and runs the matching decoder. -/
def analyze_any (f : PyFile) : String × Except PyErr (Option Rec) :=
  _analyze_any f

def dateKey (d : Nat × Nat × Nat) : Nat :=
  d.1 * 10000 + d.2.1 * 100 + d.2.2

/-- `date(*map(int, s.split(":")))` with `ValueError`/`TypeError`
absorbed: exactly three integer fields forming a valid calendar date. -/
def parseFilterDate (s : String) : Option (Nat × Nat × Nat) :=
  match (s.splitOn ":").mapM pyInt? with
  | Option.some [y, mo, d] =>
    if 0 ≤ y ∧ 0 ≤ mo ∧ 0 ≤ d ∧ validDateOnly y.toNat mo.toNat d.toNat then
      Option.some (y.toNat, mo.toNat, d.toNat)
    else Option.none
  | _ => Option.none

/-- The date-range block of `filter_files`; `Except.ok true` means the
file survives this criterion. -/
def dateDecision (range : Option (Option (Nat × Nat × Nat) × Option (Nat × Nat × Nat)))
    (f : PyFile) (r : Rec) : Except PyErr Bool :=
  match range with
  | Option.none => Except.ok true
  | Option.some (sd, ed) => do
    let dts := recGet r "date_taken"
    let dt0 : Option (Nat × Nat × Nat) ←
      if dts.truthy then
        match dts with
        | PyVal.str s => pure (parseFilterDate s)
        | _ => throw PyErr.attributeError
      else pure Option.none
    let dt := match dt0 with
      | Option.some d => Option.some d
      | Option.none => f.mtimeDate
    match dt with
    | Option.some d =>
      if (match sd with
          | Option.some s => decide (dateKey d < dateKey s)
          | Option.none => false) then pure false
      else if (match ed with
          | Option.some e2 => decide (dateKey d > dateKey e2)
          | Option.none => false) then pure false
      else pure true
    | Option.none => pure false

/-- Camera / lens allow-list membership (`not x or x not in allow`). -/
def allowDecision (allow : List String) (cell : PyVal) : Bool :=
  if !cell.truthy then false
  else match cell with
    | PyVal.str s => allow.contains s
    | _ => false

def numFromCell : PyVal → Except PyErr (Option Rat)
  | PyVal.none => Except.ok Option.none
  | PyVal.int n => Except.ok (Option.some (n : Rat))
  | PyVal.rat q => Except.ok (Option.some q)
  | _ => Except.error PyErr.typeError

/-- Numeric range check: absent value excludes the file. -/
def rangeDecision (mn mx : Option Rat) : Option Rat → Bool
  | Option.none => false
  | Option.some x =>
    !((match mn with | Option.some m => decide (x < m) | Option.none => false) ||
      (match mx with | Option.some m => decide (x > m) | Option.none => false))

/-- The shutter-speed block: parse the stored string and both bounds
with `_parse_shutter_speed` (whose `ZeroDivisionError` propagates). -/
def shutterDecision (bounds : Option (Option String × Option String)) (r : Rec) :
    Except PyErr Bool :=
  match bounds with
  | Option.none => Except.ok true
  | Option.some (mns, mxs) =>
    match recGet r "shutter_speed" with
    | PyVal.str s =>
      if s = "" then Except.ok false
      else do
        let v ← _parse_shutter_speed s
        let belowMin ←
          if optTruthyS mns then do
            let mn ← _parse_shutter_speed (mns.getD "")
            pure (decide (v < mn))
          else pure false
        if belowMin then pure false
        else do
          let aboveMax ←
            if optTruthyS mxs then do
              let mx ← _parse_shutter_speed (mxs.getD "")
              pure (decide (v > mx))
            else pure false
          if aboveMax then pure false else pure true
    | PyVal.none => Except.ok false
    | v => if v.truthy then Except.error PyErr.attributeError else Except.ok false

/-- One iteration body of the `filter_files` loop: decode, then apply
the criteria conjunctively in source order.  `Except.ok true` means the
file is appended to the filtered list. -/
def filterStep (q : FilterOptions) (f : PyFile) : Except PyErr Bool := do
  let (filetype, res) := analyze_any f
  let mdOpt ← res
  let r := mdOpt.getD []
  if r.isEmpty then pure false
  else if optListTruthy q.filetypes && !((q.filetypes.getD []).contains filetype) then
    pure false
  else
    let hasPhoto := optListTruthy q.cameras || optListTruthy q.lenses ||
      q.aperture_range.isSome || q.iso_range.isSome || q.shutter_speed_range.isSome
    if hasPhoto && filetype != "image" then pure false
    else if optListTruthy q.extensions &&
        !(((q.extensions.getD []).map pyLower).contains (pySuffixLower f.fname)) then
      pure false
    else do
      let dateOk ← dateDecision q.date_range f r
      if !dateOk then pure false
      else if optListTruthy q.cameras && !(allowDecision (q.cameras.getD []) (recGet r "camera")) then
        pure false
      else if optListTruthy q.lenses && !(allowDecision (q.lenses.getD []) (recGet r "lens")) then
        pure false
      else do
        let apOk ←
          match q.aperture_range with
          | Option.none => pure true
          | Option.some (mn, mx) => do
            let v ← numFromCell (recGet r "aperture")
            pure (rangeDecision mn mx v)
        if !apOk then pure false
        else do
          let isoOk ←
            match q.iso_range with
            | Option.none => pure true
            | Option.some (mn, mx) => do
              let v ← numFromCell (recGet r "iso")
              pure (rangeDecision (mn.map (fun n => (n : Rat))) (mx.map (fun n => (n : Rat))) v)
          if !isoOk then pure false
          else do
            let ssOk ← shutterDecision q.shutter_speed_range r
            if !ssOk then pure false else pure true

structure FiltLoopOut where
  filtered : List PyFile
  progress : List Rat
  raised : Option PyErr
  checks : Nat
  t : Nat

/-- The evaluation loop of `filter_files`: stop poll, pause block with
trailing stop poll, one decision, one progress report per evaluated
file (a raised exception aborts before that report). -/
def filtLoop (c : Ctl) (fuel total : Nat) (q : FilterOptions) :
    List PyFile → Nat → Nat → Nat → List PyFile → Option FiltLoopOut
  | [], _, t, checks, acc => Option.some ⟨acc, [], Option.none, checks, t⟩
  | f :: rest, i, t, checks, acc =>
    if c.stop t then Option.some ⟨acc, [], Option.none, checks + 1, t + 1⟩
    else
      match pauseWait c fuel (t + 1) with
      | Option.none => Option.none
      | Option.some (t2, _, n) =>
        if c.stop t2 then Option.some ⟨acc, [], Option.none, checks + 2 + n, t2 + 1⟩
        else
          match filterStep q f with
          | Except.error e => Option.some ⟨acc, [], Option.some e, checks + 2 + n, t2⟩
          | Except.ok pass =>
            (filtLoop c fuel total q rest (i + 1) (t2 + 1) (checks + 2 + n)
                (if pass then acc ++ [f] else acc)).map
              (fun out => { out with
                progress := ratDiv ((i + 1 : Nat) : Rat) (total : Rat) :: out.progress })

inductive FilterRes where
  | raised (e : PyErr) (progress : List Rat) (fs : FSState)
  | completed (progress : List Rat) (filtered : List PyFile) (org : OrgOut)

def FilterRes.progressOf : FilterRes → List Rat
  | FilterRes.raised _ p _ => p
  | FilterRes.completed p _ org => p ++ org.progress

/-- `filtering.filter_files`: evaluate every non-directory input against
the query, then hand the surviving list (with the same control token and
progress callback) to the reorganization engine. -/
def filter_files (files : List PyFile) (output : List String) (o : Options)
    (q : FilterOptions) (c : Ctl) (fuel : Nat) (fs : FSState) : Option FilterRes :=
  let fs := mkdirParents fs output
  let all_files := files.filter (fun f => !f.isDir)
  let total := all_files.length
  match filtLoop c fuel total q all_files 0 0 0 [] with
  | Option.none => Option.none
  | Option.some out =>
    match out.raised with
    | Option.some e => Option.some (FilterRes.raised e out.progress fs)
    | Option.none =>
      match organize_files_by_options out.filtered output o c fuel out.t fs with
      | Option.none => Option.none
      | Option.some org => Option.some (FilterRes.completed out.progress out.filtered org)

/-! ## Shared lemmas -/

theorem string_mk_data : ∀ s : String, String.mk s.data = s
  | ⟨_⟩ => rfl

theorem reSubClass_nil (cls : Char → Bool) :
    ∀ cs : List Char, reSubClass cls [] cs = cs.filter (fun c => !cls c)
  | [] => rfl
  | c :: cs => by
    by_cases h : cls c <;> simp [reSubClass, h, reSubClass_nil cls cs]

theorem reSubClass_single (cls : Char → Bool) (r : Char) :
    ∀ cs : List Char, reSubClass cls [r] cs = cs.map (fun c => if cls c then r else c)
  | [] => rfl
  | c :: cs => by
    by_cases h : cls c <;> simp [reSubClass, h, reSubClass_single cls r cs]

theorem foldl_append_map {α β : Type} (g : β → α) :
    ∀ (l : List β) (base : List α),
      l.foldl (fun acc x => acc ++ [g x]) base = base ++ l.map g
  | [], base => by simp
  | x :: l, base => by
    simp [List.foldl_cons, foldl_append_map g l (base ++ [g x])]

/-! ## C9 -/

/-- C9: the Excel-unsafe sanitizer removes exactly the control characters
in U+0000–U+001F and U+007F–U+009F, preserves all other characters and
their order, is the identity on strings without such characters, and is
idempotent. -/
theorem clean_excel_unsafe_removes_exactly_controls :
    (∀ s : String, clean_excel_unsafe s =
      ⟨s.data.filter (fun c => !(c.toNat ≤ 0x1F || (0x7F ≤ c.toNat && c.toNat ≤ 0x9F)))⟩) ∧
    (∀ s : String,
      (∀ c ∈ s.data, ¬(c.toNat ≤ 0x1F ∨ (0x7F ≤ c.toNat ∧ c.toNat ≤ 0x9F))) →
      clean_excel_unsafe s = s) ∧
    (∀ s : String, clean_excel_unsafe ( clean_excel_unsafe s) = clean_excel_unsafe s) := by
  have h1 : ∀ s : String, clean_excel_unsafe s =
      ⟨s.data.filter (fun c => !excelUnsafeClass c)⟩ := by
    intro s
    unfold clean_excel_unsafe
    rw [reSubClass_nil]
  refine ⟨h1, ?_, ?_⟩
  · intro s h
    rw [h1 s]
    have hfix : s.data.filter (fun c => !excelUnsafeClass c) = s.data := by
      apply List.filter_eq_self.mpr
      intro c hc
      have hcc := h c hc
      simp only [excelUnsafeClass, Bool.not_eq_true', Bool.or_eq_false_iff,
        Bool.and_eq_false_iff, decide_eq_false_iff_not]
      omega
    rw [hfix, string_mk_data]
  · intro s
    rw [h1 s, h1 ⟨(s.data.filter (fun c => !excelUnsafeClass c))⟩]
    congr 1
    apply List.filter_eq_self.mpr
    intro c hc
    replace hc : c ∈ s.data.filter (fun c => !excelUnsafeClass c) := hc
    exact (List.mem_filter.mp hc).2

theorem clean_excel_unsafe_removes_exactly_controls_witness :
    clean_excel_unsafe "abc" = "abc" :=
  clean_excel_unsafe_removes_exactly_controls.2.1 "abc" (by decide)

/-! ## C8 -/

/-- C8 counterexample: on the spec's own example the sanitizer keeps the
spaces (only `/` is replaced), so the result differs from the claimed
`"EF-S18-55mm_f_3.5-5.6_III"`; moreover a non-ASCII word character such
as `é` is kept, though it lies outside `[A-Za-z0-9_.\- ]`. -/
theorem sanitize_folder_name_claim_counterexample :
    sanitize_folder_name (Option.some "EF-S18-55mm f/3.5-5.6 III") =
      Option.some "EF-S18-55mm f_3.5-5.6 III" ∧
    ("EF-S18-55mm f_3.5-5.6 III" : String) ≠ "EF-S18-55mm_f_3.5-5.6_III" ∧
    sanitize_folder_name (Option.some "é") = Option.some "é" ∧
    ("é" : String) ≠ "_" :=
  ⟨rfl, by decide, rfl, by decide⟩

theorem folderUnsafeClass_ascii (c : Char) (h : c.toNat < 0x80) :
    folderUnsafeClass c =
      !((48 ≤ c.toNat && c.toNat ≤ 57) || (65 ≤ c.toNat && c.toNat ≤ 90) ||
        (97 ≤ c.toNat && c.toNat ≤ 122) || c.toNat = 95 || c.toNat = 46 ||
        c.toNat = 45 || c.toNat = 32) := by
  unfold folderUnsafeClass
  congr 1
  rw [Bool.eq_iff_iff]
  simp only [isPyWordChar, Bool.or_eq_true, Bool.and_eq_true, decide_eq_true_eq,
    beq_iff_eq, bne_iff_ne, ne_eq]
  omega

/-- C8 amended: on ASCII strings every character outside
`[A-Za-z0-9_.\- ]` is replaced by `_` and every character inside it —
spaces included — is kept, so the spec example maps to
`"EF-S18-55mm f_3.5-5.6 III"`; non-ASCII Unicode word characters are
also kept. -/
theorem sanitize_folder_name_amended :
    (∀ s : String, (∀ c ∈ s.data, c.toNat < 0x80) →
      sanitize_folder_name (Option.some s) = Option.some
        ⟨s.data.map (fun c =>
          if (48 ≤ c.toNat && c.toNat ≤ 57) || (65 ≤ c.toNat && c.toNat ≤ 90) ||
             (97 ≤ c.toNat && c.toNat ≤ 122) || c.toNat = 95 || c.toNat = 46 ||
             c.toNat = 45 || c.toNat = 32 then c else '_')⟩) ∧
    sanitize_folder_name (Option.some "EF-S18-55mm f/3.5-5.6 III") =
      Option.some "EF-S18-55mm f_3.5-5.6 III" ∧
    sanitize_folder_name Option.none = Option.none := by
  refine ⟨?_, rfl, rfl⟩
  intro s h
  show Option.some (⟨reSubClass folderUnsafeClass ['_'] s.data⟩ : String) = _
  rw [reSubClass_single]
  congr 1
  apply congrArg
  apply List.map_congr_left
  intro c hc
  rw [folderUnsafeClass_ascii c (h c hc)]
  by_cases hk : ((48 ≤ c.toNat && c.toNat ≤ 57) || (65 ≤ c.toNat && c.toNat ≤ 90) ||
      (97 ≤ c.toNat && c.toNat ≤ 122) || c.toNat = 95 || c.toNat = 46 ||
      c.toNat = 45 || c.toNat = 32) <;> simp [hk]

theorem sanitize_folder_name_amended_witness :
    sanitize_folder_name (Option.some "a/b") = Option.some "a_b" := by
  have := sanitize_folder_name_amended.1 "a/b" (by decide)
  simpa using this

/-! ## C7 -/

/-- C7 counterexample: `"1/0"` parses its two sides successfully and then
divides by zero, so `_parse_shutter_speed` raises `ZeroDivisionError`
instead of returning a float. -/
theorem parse_shutter_speed_claim_counterexample :
    _parse_shutter_speed "1/0" = Except.error PyErr.zeroDivision := rfl

/-- C7 amended: the documented examples hold (`"1/400"` → 0.0025,
`"2.50s"` → 2.5, `"garbage"` → 0.0), and the parser is total except that
a fractional form whose denominator parses to zero raises
`ZeroDivisionError`. -/
theorem parse_shutter_speed_amended :
    _parse_shutter_speed "1/400" = Except.ok (mkRat 1 400) ∧
    mkRat 1 400 = (0.0025 : Rat) ∧
    _parse_shutter_speed "2.50s" = Except.ok (mkRat 5 2) ∧
    mkRat 5 2 = (2.5 : Rat) ∧
    _parse_shutter_speed "garbage" = Except.ok 0 ∧
    (∀ s : String, (∃ q, _parse_shutter_speed s = Except.ok q) ∨
      _parse_shutter_speed s = Except.error PyErr.zeroDivision) := by
  have core : ∀ t : List Char, (∃ q, parseShutterCore t = Except.ok q) ∨
      parseShutterCore t = Except.error PyErr.zeroDivision := by
    intro t
    unfold parseShutterCore
    split
    · split
      · split
        · exact Or.inl ⟨_, rfl⟩
        · split
          · exact Or.inl ⟨_, rfl⟩
          · split
            · exact Or.inr rfl
            · exact Or.inl ⟨_, rfl⟩
      · exact Or.inl ⟨_, rfl⟩
    · split
      · exact Or.inl ⟨_, rfl⟩
      · exact Or.inl ⟨_, rfl⟩
  refine ⟨by decide, by norm_num [Rat.mkRat_eq_div], by decide,
    by norm_num [Rat.mkRat_eq_div], by decide, ?_⟩
  intro s
  unfold _parse_shutter_speed
  split
  · exact Or.inl ⟨_, rfl⟩
  · exact core _

/-! ## C1 -/

/-- C1: `analyze_image` propagates the `OSError` raised inside
`analyze_raw` (which has no enclosing `try`/`except`) when a `.cr2` file
cannot be read, contradicting the never-raises contract; the three other
decoders never raise for any file. -/
theorem analyze_image_raises_on_unreadable_raw :
    analyze_image { fname := "broken.cr2", statSize := Option.none } =
      Except.error PyErr.osError ∧
    (∀ f : PyFile, pySuffixLower f.fname ∉ rawExts →
      ∃ r, analyze_image f = Except.ok r) := by
  constructor
  · rfl
  · intro f h
    unfold analyze_image
    by_cases h1 : pySuffixLower f.fname ∈ standardImageExts
    · simp only [h1, if_true]
      exact ⟨_, rfl⟩
    · simp only [h1, if_false, h, if_false]
      exact ⟨_, rfl⟩

theorem analyze_image_raises_on_unreadable_raw_witness :
    pySuffixLower "a.txt" ∉ rawExts ∧
    ∃ r, analyze_image { fname := "a.txt" } = Except.ok r :=
  ⟨by decide,
   analyze_image_raises_on_unreadable_raw.2 { fname := "a.txt" } (by decide)⟩

/-! ## C10 -/

/-- C10: when the input list holds no non-directory file, the list-based
reorganization engine returns at once: the filesystem state is untouched
(no directory created, no file copied), the progress callback is never
invoked, and neither the summary report nor an exclusion log is
produced. -/
theorem generated_directory_from_list_noop_on_dirs_only :
    ∀ (files : List PyFile) (output : List String) (o : Options) (c : Ctl)
      (fuel t0 : Nat) (fs : FSState),
      (∀ f ∈ files, f.isDir = true) →
      generated_directory_from_list files output o c fuel t0 fs =
        Option.some ⟨fs, 0, [], [], false, false, 0, t0⟩ := by
  intro files output o c fuel t0 fs h
  unfold generated_directory_from_list
  have hnil : files.filter (fun f => !f.isDir) = [] :=
    List.filter_eq_nil_iff.mpr (fun f hf => by simp [h f hf])
  simp [hnil]

theorem generated_directory_from_list_noop_on_dirs_only_witness :
    generated_directory_from_list [{ fname := "d", isDir := true }] ["out"] {}
        ⟨fun _ => false, fun _ => false⟩ 1 0 {} =
      Option.some ⟨{}, 0, [], [], false, false, 0, 0⟩ :=
  generated_directory_from_list_noop_on_dirs_only _ _ _ _ _ _ _ (by decide)

/-! ## C3 -/

/-- C3 counterexample: an image whose metadata resolves the camera model
but neither Year nor Month gets one `"No Info"` folder per unresolved
dimension — the levels do not collapse after the first `"No Info"`. -/
theorem target_dir_no_info_claim_counterexample :
    targetDirFor
        { fname := "IMG_1.jpg",
          pilMeta := Option.some { model := Option.some "CanonX" } }
        ["out"] {} =
      ["out", "Photos", "No Info", "No Info"] ∧
    (["out", "Photos", "No Info", "No Info"] : List String) ≠
      ["out", "Photos", "No Info"] :=
  ⟨rfl, by decide⟩

/-- C3 amended: for an image file, when metadata extraction succeeds the
engine appends, per configured dimension in order, a folder named after
the resolved value or `"No Info"` for that dimension — unresolved
dimensions do not collapse; a single `"No Info"` level occurs only when
metadata extraction fails entirely. -/
theorem target_dir_per_dimension_no_info :
    (∀ (f : PyFile) (output : List String) (o : Options) (md : MetaDict),
      pySuffixLower f.fname ∈ imageExtsOrganize →
      _get_image_metadata f = Option.some md →
      targetDirFor f output o =
        (if o.by_media_type then output ++ ["Photos"] else output) ++
          o.structure_.map (fun arg => (mdGet md arg).getD "No Info")) ∧
    (∀ (f : PyFile) (output : List String) (o : Options),
      pySuffixLower f.fname ∈ imageExtsOrganize →
      _get_image_metadata f = Option.none →
      targetDirFor f output o =
        (if o.by_media_type then output ++ ["Photos"] else output) ++ ["No Info"]) := by
  constructor
  · intro f output o md him hmd
    unfold targetDirFor
    simp only [him, true_or, and_true, if_true, hmd, foldl_append_map]
  · intro f output o him hmd
    unfold targetDirFor
    simp only [him, true_or, and_true, if_true, hmd]

theorem target_dir_per_dimension_no_info_witness :
    pySuffixLower "IMG_1.jpg" ∈ imageExtsOrganize ∧
    _get_image_metadata
        { fname := "IMG_1.jpg",
          pilMeta := Option.some { model := Option.some "CanonX" } } =
      Option.some [("Year", Option.none), ("Month", Option.none),
                   ("Model", Option.some "CanonX"), ("Lens", Option.none)] ∧
    targetDirFor
        { fname := "IMG_1.jpg",
          pilMeta := Option.some { model := Option.some "CanonX" } }
        ["out"] {} =
      (if ({} : Options).by_media_type then ["out"] ++ ["Photos"] else ["out"]) ++
        (({} : Options).structure_.map (fun arg =>
          (mdGet [("Year", Option.none), ("Month", Option.none),
                  ("Model", Option.some "CanonX"), ("Lens", Option.none)] arg).getD "No Info")) :=
  ⟨by decide, by decide,
   target_dir_per_dimension_no_info.1 _ _ _ _ (by decide) (by decide)⟩

/-! ## C6 support: injectivity of the rename candidates -/

theorem char_ofNat_toNat_small (k : Nat) (h : k < 0xd800) : (Char.ofNat k).toNat = k := by
  have hv : k.isValidChar := Or.inl h
  simp only [Char.ofNat, hv, dif_pos, Char.toNat, Char.ofNatAux]
  change (BitVec.ofNatLt k _).toNat = k
  simp [BitVec.toNat_ofNatLt]

theorem natDigitsRev_eq_digits :
    ∀ (fuel n : Nat), n ≤ fuel → natDigitsRev fuel n = Nat.digits 10 n
  | 0, 0, _ => by simp [natDigitsRev]
  | fuel + 1, 0, _ => by simp [natDigitsRev]
  | 0, n + 1, h => by omega
  | fuel + 1, n + 1, h => by
    rw [natDigitsRev, Nat.digits_def' (by norm_num : 1 < 10) (Nat.succ_pos n)]
    rw [natDigitsRev_eq_digits fuel ((n + 1) / 10) (by omega)]

theorem foldl_base10_reverse :
    ∀ (l : List Nat) (s : Nat),
      List.foldl (fun a d => a * 10 + d) s l.reverse = s * 10 ^ l.length + Nat.ofDigits 10 l
  | [], s => by simp
  | d :: t, s => by
    simp only [List.reverse_cons, List.foldl_append, List.foldl_cons, List.foldl_nil,
      foldl_base10_reverse t s, Nat.ofDigits_cons, List.length_cons]
    ring

theorem foldl_char_digits :
    ∀ (m : List Nat) (s : Nat), (∀ d ∈ m, d < 10) →
      List.foldl (fun a d => a * 10 + ((Char.ofNat (48 + d)).toNat - 48)) s m =
      List.foldl (fun a d => a * 10 + d) s m
  | [], _, _ => rfl
  | d :: m, s, h => by
    simp only [List.foldl_cons]
    rw [char_ofNat_toNat_small (48 + d) (by have := h d (by simp); omega)]
    rw [foldl_char_digits m _ (fun e he => h e (by simp [he]))]
    congr 1
    omega

theorem digitsToNat_natDecimal (n : Nat) : digitsToNat (natDecimal n).data = n := by
  unfold natDecimal
  by_cases h : n = 0
  · subst h
    rfl
  · simp only [h, if_false]
    show digitsToNat ((natDigitsRev n n).map (fun d => Char.ofNat (48 + d))).reverse = n
    rw [natDigitsRev_eq_digits n n le_rfl]
    unfold digitsToNat
    rw [← List.map_reverse, List.foldl_map]
    rw [foldl_char_digits _ 0 (fun d hd =>
      Nat.digits_lt_base (by norm_num) (List.mem_reverse.mp hd))]
    rw [foldl_base10_reverse]
    simp [Nat.ofDigits_digits]

theorem natDecimal_injective : Function.Injective natDecimal := by
  intro m n h
  have h2 := congrArg (fun s : String => digitsToNat s.data) h
  simpa only [digitsToNat_natDecimal] using h2

theorem renameCandidate_injective (target : List String) (stem sfx : String) :
    Function.Injective (renameCandidate target stem sfx) := by
  intro j k h
  unfold renameCandidate at h
  have h1 : stem ++ "_" ++ natDecimal j ++ sfx = stem ++ "_" ++ natDecimal k ++ sfx := by
    have := List.append_cancel_left h
    exact List.singleton_injective this
  have h2 := congrArg String.data h1
  simp only [String.data_append, List.append_assoc] at h2
  have h3 := List.append_cancel_left h2
  have h4 := List.append_cancel_left h3
  have h5 := List.append_cancel_right h4
  have h6 : natDecimal j = natDecimal k := by
    have := congrArg String.mk h5
    rwa [string_mk_data, string_mk_data] at this
  exact natDecimal_injective h6

theorem renameLoop_spec (fs : FSState) (target : List String) (stem sfx : String) :
    ∀ (fuel counter : Nat),
      (∃ j, counter ≤ j ∧ j < counter + fuel ∧
        fileExists fs (renameCandidate target stem sfx j) = false) →
      ∃ k, counter ≤ k ∧
        renameLoop fs target stem sfx counter fuel = renameCandidate target stem sfx k ∧
        fileExists fs (renameCandidate target stem sfx k) = false ∧
        ∀ j, counter ≤ j → j < k → fileExists fs (renameCandidate target stem sfx j) = true
  | 0, counter => by
    rintro ⟨j, h1, h2, _⟩
    omega
  | fuel + 1, counter => by
    rintro ⟨j, h1, h2, hfree⟩
    unfold renameLoop
    by_cases hc : fileExists fs (renameCandidate target stem sfx counter) = true
    · simp only [hc, if_true]
      have hj : j ≠ counter := by
        intro he
        rw [he] at hfree
        rw [hfree] at hc
        exact Bool.false_ne_true hc
      obtain ⟨k, hk1, hk2, hk3, hk4⟩ :=
        renameLoop_spec fs target stem sfx fuel (counter + 1) ⟨j, by omega, by omega, hfree⟩
      refine ⟨k, by omega, hk2, hk3, ?_⟩
      intro i hi1 hi2
      by_cases hie : i = counter
      · rw [hie]; exact hc
      · exact hk4 i (by omega) hi2
    · simp only [Bool.not_eq_true] at hc
      simp only [hc, Bool.false_eq_true, if_false]
      exact ⟨counter, le_refl _, rfl, hc, fun i hi1 hi2 => by omega⟩

theorem fileExists_eq_mem_keys (fs : FSState) (p : List String) :
    fileExists fs p = true ↔ p ∈ fs.files.map (fun e => e.1) := by
  unfold fileExists
  rw [List.any_eq_true]
  constructor
  · rintro ⟨e, he, hep⟩
    exact List.mem_map.mpr ⟨e, he, by simpa using hep.symm⟩
  · intro hp
    obtain ⟨e, he, hep⟩ := List.mem_map.mp hp
    exact ⟨e, he, by simp [hep]⟩

theorem exists_free_candidate (fs : FSState) (target : List String) (stem sfx : String) :
    ∃ j, 1 ≤ j ∧ j < 1 + (fs.files.length + 1) ∧
      fileExists fs (renameCandidate target stem sfx j) = false := by
  by_contra hcon
  push_neg at hcon
  have hall : ∀ j, 1 ≤ j → j < fs.files.length + 2 →
      fileExists fs (renameCandidate target stem sfx j) = true := by
    intro j h1 h2
    have := hcon j h1 (by omega)
    revert this
    cases fileExists fs (renameCandidate target stem sfx j) <;> simp
  have hsub : (List.range' 1 (fs.files.length + 1)).map (renameCandidate target stem sfx) ⊆
      fs.files.map (fun e => e.1) := by
    intro p hp
    obtain ⟨i, hi, rfl⟩ := List.mem_map.mp hp
    rw [List.mem_range'_1] at hi
    exact (fileExists_eq_mem_keys fs _).mp (hall i hi.1 (by omega))
  have hnodup : ((List.range' 1 (fs.files.length + 1)).map
      (renameCandidate target stem sfx)).Nodup :=
    (List.nodup_range' 1 (fs.files.length + 1)).map (renameCandidate_injective target stem sfx)
  have hle := (List.subperm_of_subset hnodup hsub).length_le
  simp only [List.length_map, List.length_range'] at hle
  omega

/-! ## C6 -/

/-- C6: under the `skip` policy an existing destination yields status
"skipped", no copy happens and the file map is untouched (the existing
destination keeps its bytes and timestamp); under `rename` with the
destination occupied, the engine appends `_1`, `_2`, … to the stem and
copies to the first candidate not present, leaving all existing entries
in place. -/
theorem process_single_file_conflict_policies :
    (∀ (f : PyFile) (output : List String) (o : Options) (fs : FSState),
      o.on_exist = ConflictPolicy.skip →
      fileExists fs (targetDirFor f output o ++ [f.fname]) = true →
      (_process_single_file f output o fs).1 = CopyStatus.skippedStatus ∧
      ((_process_single_file f output o fs).2).files = fs.files) ∧
    (∀ (f : PyFile) (output : List String) (o : Options) (fs : FSState),
      o.on_exist = ConflictPolicy.rename → f.copyOk = true →
      fileExists fs (targetDirFor f output o ++ [f.fname]) = true →
      ∃ k, 1 ≤ k ∧
        (_process_single_file f output o fs).1 = CopyStatus.copied ∧
        ((_process_single_file f output o fs).2).files =
          (renameCandidate (targetDirFor f output o) (pyStem f.fname) (pySuffix f.fname) k,
            f.content, f.fmtime) :: fs.files ∧
        fileExists fs (renameCandidate (targetDirFor f output o) (pyStem f.fname)
          (pySuffix f.fname) k) = false ∧
        ∀ j, 1 ≤ j → j < k →
          fileExists fs (renameCandidate (targetDirFor f output o) (pyStem f.fname)
            (pySuffix f.fname) j) = true) := by
  constructor
  · intro f output o fs hskip hex
    have key : _process_single_file f output o fs =
        (CopyStatus.skippedStatus, mkdirParents fs (targetDirFor f output o)) := by
      unfold _process_single_file
      have hex2 : fileExists (mkdirParents fs (targetDirFor f output o))
          (targetDirFor f output o ++ [f.fname]) = true := hex
      have hss : (ConflictPolicy.skip == ConflictPolicy.skip) = true := rfl
      simp only [hskip, hss, hex2, Bool.true_and, if_true]
    rw [key]
    exact ⟨rfl, rfl⟩
  · intro f output o fs hren hcopy hex
    have hex2 : fileExists (mkdirParents fs (targetDirFor f output o))
        (targetDirFor f output o ++ [f.fname]) = true := hex
    obtain ⟨j, hj1, hj2, hjfree⟩ :=
      exists_free_candidate (mkdirParents fs (targetDirFor f output o))
        (targetDirFor f output o) (pyStem f.fname) (pySuffix f.fname)
    obtain ⟨k, hk1, hk2, hk3, hk4⟩ :=
      renameLoop_spec (mkdirParents fs (targetDirFor f output o))
        (targetDirFor f output o) (pyStem f.fname) (pySuffix f.fname)
        ((mkdirParents fs (targetDirFor f output o)).files.length + 1) 1
        ⟨j, hj1, hj2, hjfree⟩
    have key : _process_single_file f output o fs =
        (CopyStatus.copied,
          { mkdirParents fs (targetDirFor f output o) with
            files := (renameLoop (mkdirParents fs (targetDirFor f output o))
                (targetDirFor f output o) (pyStem f.fname) (pySuffix f.fname) 1
                ((mkdirParents fs (targetDirFor f output o)).files.length + 1),
              f.content, f.fmtime) ::
              (mkdirParents fs (targetDirFor f output o)).files }) := by
      unfold _process_single_file
      have hne : (ConflictPolicy.rename == ConflictPolicy.skip) = false := rfl
      have hrr : (ConflictPolicy.rename == ConflictPolicy.rename) = true := rfl
      simp only [hren, hne, hrr, hex2, Bool.false_and, Bool.false_eq_true, if_false,
        Bool.true_and, if_true, hcopy]
    rw [key]
    refine ⟨k, hk1, rfl, ?_, hk3, hk4⟩
    show (renameLoop (mkdirParents fs (targetDirFor f output o))
        (targetDirFor f output o) (pyStem f.fname) (pySuffix f.fname) 1
        ((mkdirParents fs (targetDirFor f output o)).files.length + 1),
      f.content, f.fmtime) :: (mkdirParents fs (targetDirFor f output o)).files =
      (renameCandidate (targetDirFor f output o) (pyStem f.fname) (pySuffix f.fname) k,
        f.content, f.fmtime) :: fs.files
    rw [hk2]
    rfl

theorem process_single_file_conflict_policies_witness :
    ((_process_single_file { fname := "a.jpg" } ["o"] { on_exist := ConflictPolicy.skip }
        ⟨[(["o", "Photos", "No Info", "a.jpg"], 7, 3)], []⟩).1 =
      CopyStatus.skippedStatus ∧
    ((_process_single_file { fname := "a.jpg" } ["o"] { on_exist := ConflictPolicy.skip }
        ⟨[(["o", "Photos", "No Info", "a.jpg"], 7, 3)], []⟩).2).files =
      [(["o", "Photos", "No Info", "a.jpg"], 7, 3)]) :=
  process_single_file_conflict_policies.1
    { fname := "a.jpg" } ["o"] { on_exist := ConflictPolicy.skip }
    ⟨[(["o", "Photos", "No Info", "a.jpg"], 7, 3)], []⟩ rfl (by decide)

/-! ## Run lemmas for the batch loops -/

theorem ratDiv_eq_div (a b : Rat) : ratDiv a b = a / b := by
  rw [ratDiv, Rat.divInt_eq_div]
  rcases eq_or_ne b 0 with hb | hb
  · subst hb
    simp
  · have hbn : (b.num : Rat) ≠ 0 := by exact_mod_cast Rat.num_ne_zero.mpr hb
    have ha : ((a.den : Nat) : Rat) ≠ 0 := Nat.cast_ne_zero.mpr (Rat.den_ne_zero a)
    have hbd : ((b.den : Nat) : Rat) ≠ 0 := Nat.cast_ne_zero.mpr (Rat.den_ne_zero b)
    have hna : (a.num : Rat) = a * a.den := by
      have h0 : ((a.num : Int) : Rat) / ((a.den : Nat) : Rat) = a := by
        exact_mod_cast Rat.num_div_den a
      rw [div_eq_iff ha] at h0
      exact h0
    have hnb : (b.num : Rat) = b * b.den := by
      have h0 : ((b.num : Int) : Rat) / ((b.den : Nat) : Rat) = b := by
        exact_mod_cast Rat.num_div_den b
      rw [div_eq_iff hbd] at h0
      exact h0
    push_cast
    rw [hna, hnb]
    rw [div_eq_div_iff (by exact mul_ne_zero ha (by rw [hnb] at hbn; exact hbn)) hb]
    ring

theorem pauseWait_off (c : Ctl) (hp : ∀ t, c.pause t = false) (fuel : Nat) (hf : 0 < fuel)
    (t : Nat) : pauseWait c fuel t = Option.some (t + 1, false, 0) := by
  cases fuel with
  | zero => omega
  | succ n =>
    unfold pauseWait
    simp [hp t]

theorem walkLoop_complete (c : Ctl) (hs : ∀ t, c.stop t = false) (hp : ∀ t, c.pause t = false)
    (fuel : Nat) (hf : 0 < fuel) :
    ∀ (dirs : List (List PyFile)) (t checks dcount : Nat) (acc : List PyFile),
      walkLoop c fuel dirs t checks dcount acc =
        Option.some (WalkOut.complete (acc ++ dirs.flatten) (t + 2 * dirs.length)
          (checks + dirs.length) (dcount + dirs.length))
  | [], t, checks, dcount, acc => by simp [walkLoop]
  | d :: rest, t, checks, dcount, acc => by
    rw [walkLoop]
    rw [hs t]
    simp only [Bool.false_eq_true, if_false]
    rw [pauseWait_off c hp fuel hf (t + 1)]
    simp only [Bool.false_eq_true, if_false]
    rw [walkLoop_complete c hs hp fuel hf rest (t + 2) (checks + 1 + 0) (dcount + 1) (acc ++ d)]
    have h1 : acc ++ d ++ rest.flatten = acc ++ (d :: rest).flatten := by simp
    have h2 : t + 2 + 2 * rest.length = t + 2 * (d :: rest).length := by
      simp [List.length_cons]; ring
    have h3 : checks + 1 + 0 + rest.length = checks + (d :: rest).length := by
      simp [List.length_cons]; ring
    have h4 : dcount + 1 + rest.length = dcount + (d :: rest).length := by
      simp [List.length_cons]; ring
    rw [h1, h2, h3, h4]

/-! ## C2 -/

/-- C2: each category's table keeps its full fixed column schema with
zero rows whenever that category collects zero records, and a run of
`analyze_directories` that enumerates no files at all returns all three
schema-stable empty tables (with one cancellation check per directory
walked and no progress report). -/
theorem empty_input_schema_stability :
    format_df DataFrame.emptyFrame "image" = ⟨imageCols, []⟩ ∧
    format_df DataFrame.emptyFrame "video" = ⟨videoCols, []⟩ ∧
    format_df DataFrame.emptyFrame "other" = ⟨otherCols, []⟩ ∧
    (∀ vids oths, (buildTables [] vids oths).1 = ⟨imageCols, []⟩) ∧
    (∀ imgs oths, (buildTables imgs [] oths).2.1 = ⟨videoCols, []⟩) ∧
    (∀ imgs vids, (buildTables imgs vids []).2.2 = ⟨otherCols, []⟩) ∧
    (∀ (roots : List (List (List PyFile))) (c : Ctl) (order : List Nat) (fuel : Nat),
      0 < fuel → (∀ t, c.stop t = false) → (∀ t, c.pause t = false) →
      (roots.flatten).flatten = [] →
      analyze_directories roots c order fuel =
        Option.some ⟨Except.ok (⟨imageCols, []⟩, ⟨videoCols, []⟩, ⟨otherCols, []⟩), [],
          (roots.flatten).length, (roots.flatten).length, 0⟩) := by
  refine ⟨rfl, rfl, rfl, fun _ _ => rfl, fun _ _ => rfl, fun _ _ => rfl, ?_⟩
  intro roots c order fuel hf hs hp hempty
  unfold analyze_directories
  rw [walkLoop_complete c hs hp fuel hf roots.flatten 0 0 0 []]
  simp only [hempty, List.nil_append, List.length_nil, if_true, Nat.zero_add]
  rfl

theorem empty_input_schema_stability_witness :
    analyze_directories [[[], []]] ⟨fun _ => false, fun _ => false⟩ [] 1 =
      Option.some ⟨Except.ok (⟨imageCols, []⟩, ⟨videoCols, []⟩, ⟨otherCols, []⟩), [], 2, 2, 0⟩ :=
  empty_input_schema_stability.2.2.2.2.2.2 [[[], []]] ⟨fun _ => false, fun _ => false⟩ [] 1
    (by decide) (fun _ => rfl) (fun _ => rfl) rfl

theorem range_map_succ_shift (n i total : Nat) :
    ratDiv ((i + 1 : Nat) : Rat) (total : Rat) ::
      (List.range n).map (fun j => ratDiv ((i + 1 + j + 1 : Nat) : Rat) (total : Rat)) =
    (List.range (n + 1)).map (fun j => ratDiv ((i + j + 1 : Nat) : Rat) (total : Rat)) := by
  rw [List.range_succ_eq_map]
  simp only [List.map_cons, List.map_map]
  have htail : (List.range n).map
      ((fun j => ratDiv ((i + j + 1 : Nat) : Rat) (total : Rat)) ∘ Nat.succ) =
      (List.range n).map (fun j => ratDiv ((i + 1 + j + 1 : Nat) : Rat) (total : Rat)) := by
    apply List.map_congr_left
    intro j _
    simp only [Function.comp, Nat.succ_eq_add_one]
    have h2 : i + (j + 1) + 1 = i + 1 + j + 1 := by omega
    rw [h2]
  rw [htail]

theorem aggLoop_complete (c : Ctl) (hs : ∀ t, c.stop t = false) (hp : ∀ t, c.pause t = false)
    (fuel total : Nat) (hf : 0 < fuel) :
    ∀ (tasks : List (String × Except PyErr (Option Rec))) (i t checks tk : Nat)
      (imgs vids oths : List Rec),
      (∀ p ∈ tasks, (p.2).isOk = true) →
      ∃ a b d, aggLoop c fuel total tasks i t checks tk imgs vids oths =
        Option.some (AggOut.complete a b d (t + 2 * tasks.length) (checks + tasks.length)
          (tk + tasks.length)
          ((List.range tasks.length).map
            (fun j => ratDiv ((i + j + 1 : Nat) : Rat) (total : Rat))))
  | [], i, t, checks, tk, imgs, vids, oths, _ =>
    ⟨imgs, vids, oths, by simp [aggLoop]⟩
  | (cat, res) :: rest, i, t, checks, tk, imgs, vids, oths, hok => by
    obtain ⟨result, rfl⟩ : ∃ r, res = Except.ok r := by
      have h1 := hok (cat, res) (by simp)
      cases res with
      | ok r => exact ⟨r, rfl⟩
      | error e => simp [Except.isOk, Except.toBool] at h1
    have hok2 : ∀ p ∈ rest, (p.2).isOk = true := fun p hp2 => hok p (by simp [hp2])
    have step : ∀ (A B D : List Rec),
        ∃ a b d, (aggLoop c fuel total rest (i + 1) (t + 2) (checks + 1 + 0) (tk + 1)
            A B D).map
            (AggOut.consProgress (ratDiv ((i + 1 : Nat) : Rat) (total : Rat))) =
          Option.some (AggOut.complete a b d (t + 2 * (rest.length + 1))
            (checks + (rest.length + 1)) (tk + (rest.length + 1))
            ((List.range (rest.length + 1)).map
              (fun j => ratDiv ((i + j + 1 : Nat) : Rat) (total : Rat)))) := by
      intro A B D
      obtain ⟨a, b, d, h⟩ :=
        aggLoop_complete c hs hp fuel total hf rest (i + 1) (t + 2) (checks + 1 + 0) (tk + 1)
          A B D hok2
      refine ⟨a, b, d, ?_⟩
      rw [h]
      simp only [Option.map_some', AggOut.consProgress]
      rw [range_map_succ_shift]
      have e1 : t + 2 + 2 * rest.length = t + 2 * (rest.length + 1) := by omega
      have e2 : checks + 1 + 0 + rest.length = checks + (rest.length + 1) := by omega
      have e3 : tk + 1 + rest.length = tk + (rest.length + 1) := by omega
      rw [e1, e2, e3]
    rw [aggLoop]
    rw [hs t]
    simp only [Bool.false_eq_true, if_false]
    rw [pauseWait_off c hp fuel hf (t + 1)]
    simp only [Bool.false_eq_true, if_false, List.length_cons]
    exact step _ _ _

theorem filterMap_get_length {α : Type} (l : List α) :
    ∀ (order : List Nat), (∀ j ∈ order, j < l.length) →
      (order.filterMap (fun j => l[j]?)).length = order.length
  | [], _ => rfl
  | j :: order, h => by
    have hj : j < l.length := h j (by simp)
    rw [List.filterMap_cons]
    rw [List.getElem?_eq_getElem hj]
    simp only [List.length_cons]
    rw [filterMap_get_length l order (fun x hx => h x (by simp [hx]))]

/-! ## C4 -/

/-- C4: if the cancellation signal reads set, `analyze_directories`
terminates with the schema-stable empty tables and no exception; in an
uncancelled, unpaused run with no decoder exception, the signal is
polled exactly once per directory visited plus once per completed decode
task, and the run still returns tables rather than raising. -/
theorem analysis_cancellation_safe :
    (∀ (roots : List (List (List PyFile))) (c : Ctl) (order : List Nat) (fuel : Nat),
      (∀ t, c.stop t = true) →
      ∃ checks dirs, analyze_directories roots c order fuel =
        Option.some ⟨Except.ok emptyTables, [], checks, dirs, 0⟩) ∧
    (∀ (roots : List (List (List PyFile))) (c : Ctl) (order : List Nat) (fuel : Nat),
      0 < fuel → (∀ t, c.stop t = false) → (∀ t, c.pause t = false) →
      (∀ f ∈ order.filterMap (fun j => ((roots.flatten).flatten)[j]?),
        ((_analyze_any f).2).isOk = true) →
      ∃ out, analyze_directories roots c order fuel = Option.some out ∧
        out.checks = out.dirs + out.tasks ∧
        out.dirs = (roots.flatten).length ∧
        out.tasks = (order.filterMap (fun j => ((roots.flatten).flatten)[j]?)).length ∧
        ∃ tables, out.result = Except.ok tables) := by
  constructor
  · intro roots c order fuel hstop
    unfold analyze_directories
    cases hflat : roots.flatten with
    | nil =>
      refine ⟨0, 0, ?_⟩
      rw [show walkLoop c fuel [] 0 0 0 [] =
        Option.some (WalkOut.complete [] 0 0 0) from rfl]
      rfl
    | cons d rest =>
      refine ⟨1, 1, ?_⟩
      rw [walkLoop]
      rw [hstop 0]
      rfl
  · intro roots c order fuel hf hs hp hok
    unfold analyze_directories
    rw [walkLoop_complete c hs hp fuel hf roots.flatten 0 0 0 []]
    simp only [List.nil_append, Nat.zero_add]
    by_cases hz : (roots.flatten).flatten.length = 0
    · simp only [hz, if_pos rfl]
      refine ⟨_, rfl, ?_, ?_, ?_, emptyTables, rfl⟩
      · simp
      · rfl
      · have hemp : (roots.flatten).flatten = [] := List.length_eq_zero.mp hz
        rw [hemp]
        have hfm : ∀ (l : List Nat),
            List.filterMap (fun j => (([] : List PyFile))[j]?) l = [] := by
          intro l
          induction l with
          | nil => rfl
          | cons j l ih => simp [List.filterMap_cons, ih]
        rw [hfm order]
        rfl
    · simp only [hz, if_false]
      have hok2 : ∀ p ∈ (order.filterMap
          (fun j => ((roots.flatten).flatten)[j]?)).map _analyze_any, (p.2).isOk = true := by
        intro p hp2
        obtain ⟨f, hf2, rfl⟩ := List.mem_map.mp hp2
        exact hok f hf2
      obtain ⟨a, b, d, hagg⟩ :=
        aggLoop_complete c hs hp fuel (roots.flatten).flatten.length hf
          ((order.filterMap (fun j => ((roots.flatten).flatten)[j]?)).map _analyze_any)
          0 (2 * (roots.flatten).length) 0 0 [] [] [] hok2
      rw [hagg]
      refine ⟨_, rfl, ?_, rfl, ?_, _, rfl⟩
      · simp
      · simp

theorem analysis_cancellation_safe_witness :
    (∃ checks dirs,
      analyze_directories [[[{ fname := "x.txt" }]]] ⟨fun _ => true, fun _ => false⟩ [0] 1 =
        Option.some ⟨Except.ok emptyTables, [], checks, dirs, 0⟩) ∧
    (∃ out, analyze_directories [[[{ fname := "x.txt" }]]]
        ⟨fun _ => false, fun _ => false⟩ [0] 1 = Option.some out ∧
      out.checks = out.dirs + out.tasks ∧
      out.dirs = ([[[({ fname := "x.txt" } : PyFile)]]].flatten).length ∧
      out.tasks = ([0].filterMap
        (fun j => (([[[({ fname := "x.txt" } : PyFile)]]].flatten).flatten)[j]?)).length ∧
      ∃ tables, out.result = Except.ok tables) :=
  ⟨analysis_cancellation_safe.1 [[[{ fname := "x.txt" }]]]
      ⟨fun _ => true, fun _ => false⟩ [0] 1 (fun _ => rfl),
   analysis_cancellation_safe.2 [[[{ fname := "x.txt" }]]]
      ⟨fun _ => false, fun _ => false⟩ [0] 1 (by decide) (fun _ => rfl) (fun _ => rfl)
      (by decide)⟩

theorem range_map_zero_shift (n total : Nat) :
    (List.range n).map (fun j => ratDiv ((0 + j + 1 : Nat) : Rat) (total : Rat)) =
    (List.range n).map (fun j => ratDiv ((j + 1 : Nat) : Rat) (total : Rat)) := by
  apply List.map_congr_left
  intro j _
  have h : 0 + j + 1 = j + 1 := by omega
  rw [h]

theorem progress_list_sorted_bounded (n total : Nat) (hn : n ≤ total) :
    List.Sorted (· ≤ ·)
      ((List.range n).map (fun j => ratDiv ((j + 1 : Nat) : Rat) (total : Rat))) ∧
    ∀ x ∈ (List.range n).map (fun j => ratDiv ((j + 1 : Nat) : Rat) (total : Rat)),
      0 ≤ x ∧ x ≤ 1 := by
  rcases Nat.eq_zero_or_pos total with h0 | hpos
  · have hn0 : n = 0 := by omega
    subst hn0
    exact ⟨List.sorted_nil, by simp⟩
  · have hposQ : (0 : Rat) < (total : Nat) := by exact_mod_cast hpos
    constructor
    · refine List.Pairwise.map _ ?_ (List.pairwise_lt_range n)
      intro a b hab
      rw [ratDiv_eq_div, ratDiv_eq_div]
      apply (div_le_div_iff_of_pos_right hposQ).mpr
      exact_mod_cast Nat.succ_le_succ (Nat.le_of_lt hab)
    · intro x hx
      obtain ⟨j, hj, rfl⟩ := List.mem_map.mp hx
      rw [ratDiv_eq_div]
      refine ⟨by positivity, ?_⟩
      rw [div_le_one hposQ]
      have hjn : j < n := List.mem_range.mp hj
      exact_mod_cast (by omega : j + 1 ≤ total)

theorem orgLoop_complete (c : Ctl) (hs : ∀ t, c.stop t = false) (hp : ∀ t, c.pause t = false)
    (fuel total : Nat) (hf : 0 < fuel) (output : List String) (o : Options) :
    ∀ (files : List PyFile) (i t checks : Nat) (fs : FSState) (copiedN : Nat)
      (excl : List PyFile),
      ∃ fs2 cp2 ex2,
        orgLoop c fuel total output o files i t checks fs copiedN excl =
          Option.some ⟨fs2, cp2, ex2,
            (List.range files.length).map
              (fun j => ratDiv ((i + j + 1 : Nat) : Rat) (total : Rat)),
            checks + 2 * files.length, t + 3 * files.length⟩
  | [], i, t, checks, fs, copiedN, excl => ⟨fs, copiedN, excl, by simp [orgLoop]⟩
  | f :: rest, i, t, checks, fs, copiedN, excl => by
    have step : ∀ (FS2 : FSState) (CP : Nat) (EX : List PyFile),
        ∃ fs2 cp2 ex2,
          (orgLoop c fuel total output o rest (i + 1) (t + 1 + 1 + 1) (checks + 2 + 0)
              FS2 CP EX).map
            (fun out => { out with
              progress := ratDiv ((i + 1 : Nat) : Rat) (total : Rat) :: out.progress }) =
          Option.some ⟨fs2, cp2, ex2,
            (List.range (rest.length + 1)).map
              (fun j => ratDiv ((i + j + 1 : Nat) : Rat) (total : Rat)),
            checks + 2 * (rest.length + 1), t + 3 * (rest.length + 1)⟩ := by
      intro FS2 CP EX
      obtain ⟨fs2, cp2, ex2, h⟩ := orgLoop_complete c hs hp fuel total hf output o rest
        (i + 1) (t + 1 + 1 + 1) (checks + 2 + 0) FS2 CP EX
      refine ⟨fs2, cp2, ex2, ?_⟩
      rw [h]
      simp only [Option.map_some']
      rw [range_map_succ_shift]
      have e1 : checks + 2 + 0 + 2 * rest.length = checks + 2 * (rest.length + 1) := by omega
      have e2 : t + 1 + 1 + 1 + 3 * rest.length = t + 3 * (rest.length + 1) := by omega
      rw [e1, e2]
    rw [orgLoop]
    rw [hs t]
    simp only [Bool.false_eq_true, if_false]
    rw [pauseWait_off c hp fuel hf (t + 1)]
    dsimp only
    rw [hs (t + 1 + 1)]
    simp only [Bool.false_eq_true, if_false, List.length_cons]
    exact step _ _ _

theorem filtLoop_complete (c : Ctl) (hs : ∀ t, c.stop t = false) (hp : ∀ t, c.pause t = false)
    (fuel total : Nat) (hf : 0 < fuel) (q : FilterOptions) :
    ∀ (files : List PyFile) (i t checks : Nat) (acc : List PyFile),
      (∀ f ∈ files, (filterStep q f).isOk = true) →
      ∃ acc2, filtLoop c fuel total q files i t checks acc =
        Option.some ⟨acc2,
          (List.range files.length).map
            (fun j => ratDiv ((i + j + 1 : Nat) : Rat) (total : Rat)),
          Option.none, checks + 2 * files.length, t + 3 * files.length⟩
  | [], i, t, checks, acc, _ => ⟨acc, by simp [filtLoop]⟩
  | f :: rest, i, t, checks, acc, hok => by
    obtain ⟨pass, hpass⟩ : ∃ b, filterStep q f = Except.ok b := by
      have h1 := hok f (by simp)
      cases hstep : filterStep q f with
      | ok b => exact ⟨b, rfl⟩
      | error e => rw [hstep] at h1; simp [Except.isOk, Except.toBool] at h1
    have hok2 : ∀ g ∈ rest, (filterStep q g).isOk = true := fun g hg => hok g (by simp [hg])
    have step : ∀ (A : List PyFile),
        ∃ acc2,
          (filtLoop c fuel total q rest (i + 1) (t + 1 + 1 + 1) (checks + 2 + 0) A).map
            (fun out => { out with
              progress := ratDiv ((i + 1 : Nat) : Rat) (total : Rat) :: out.progress }) =
          Option.some ⟨acc2,
            (List.range (rest.length + 1)).map
              (fun j => ratDiv ((i + j + 1 : Nat) : Rat) (total : Rat)),
            Option.none, checks + 2 * (rest.length + 1), t + 3 * (rest.length + 1)⟩ := by
      intro A
      obtain ⟨acc2, h⟩ := filtLoop_complete c hs hp fuel total hf q rest
        (i + 1) (t + 1 + 1 + 1) (checks + 2 + 0) A hok2
      refine ⟨acc2, ?_⟩
      rw [h]
      simp only [Option.map_some']
      rw [range_map_succ_shift]
      have e1 : checks + 2 + 0 + 2 * rest.length = checks + 2 * (rest.length + 1) := by omega
      have e2 : t + 1 + 1 + 1 + 3 * rest.length = t + 3 * (rest.length + 1) := by omega
      rw [e1, e2]
    rw [filtLoop]
    rw [hs t]
    simp only [Bool.false_eq_true, if_false]
    rw [pauseWait_off c hp fuel hf (t + 1)]
    dsimp only
    rw [hs (t + 1 + 1), hpass]
    simp only [Bool.false_eq_true, if_false, List.length_cons]
    exact step _

theorem gdfl_complete (c : Ctl) (hs : ∀ t, c.stop t = false) (hp : ∀ t, c.pause t = false)
    (fuel : Nat) (hf : 0 < fuel) (files : List PyFile) (output : List String) (o : Options)
    (t0 : Nat) (fs : FSState) :
    ∃ org, generated_directory_from_list files output o c fuel t0 fs = Option.some org ∧
      org.progress = (List.range (files.filter (fun f => !f.isDir)).length).map
        (fun j => ratDiv ((j + 1 : Nat) : Rat)
          (((files.filter (fun f => !f.isDir)).length : Nat) : Rat)) := by
  unfold generated_directory_from_list
  by_cases hz : (files.filter (fun f => !f.isDir)).length = 0
  · simp only [hz, if_pos rfl]
    exact ⟨_, rfl, by simp [hz]⟩
  · simp only [hz, if_false]
    obtain ⟨fs2, cp2, ex2, h⟩ := orgLoop_complete c hs hp fuel
      (files.filter (fun f => !f.isDir)).length hf output o
      (files.filter (fun f => !f.isDir)) 0 t0 0 fs 0 []
    rw [h]
    refine ⟨_, rfl, ?_⟩
    show (List.range (files.filter (fun f => !f.isDir)).length).map
        (fun j => ratDiv ((0 + j + 1 : Nat) : Rat)
          (((files.filter (fun f => !f.isDir)).length : Nat) : Rat)) = _
    rw [range_map_zero_shift]

/-! ## C5 -/

/-- C5 counterexample: a filtering run over two plain files reports
1/2, 1 during the evaluation phase and then 1/2, 1 again during the
reorganization phase it hands off to, so the combined sequence of
fractions of the single run is not monotonically non-decreasing. -/
theorem progress_monotonicity_counterexample :
    ((filter_files
        [{ fname := "a.txt", statSize := Option.some 5 },
         { fname := "b.txt", statSize := Option.some 5 }]
        ["out"] {} {} ⟨fun _ => false, fun _ => false⟩ 1 ⟨[], []⟩).map
      FilterRes.progressOf) =
      Option.some [mkRat 1 2, 1, mkRat 1 2, 1] ∧
    ¬ List.Sorted (· ≤ ·) [mkRat 1 2, (1 : Rat), mkRat 1 2, 1] := by
  constructor
  · decide
  · decide

/-- C5 amended: within each phase the reported fractions are
monotonically non-decreasing and lie in [0,1], one report per completed
unit with total known up front: this holds for the whole analysis run
and for the filtering-evaluation and reorganization phases taken
separately; the combined sequence of a filtering run restarts at the
phase boundary. -/
theorem progress_monotone_within_phases :
    (∀ (roots : List (List (List PyFile))) (c : Ctl) (order : List Nat) (fuel : Nat),
      0 < fuel → (∀ t, c.stop t = false) → (∀ t, c.pause t = false) →
      order.Perm (List.range ((roots.flatten).flatten).length) →
      (∀ f ∈ order.filterMap (fun j => ((roots.flatten).flatten)[j]?),
        ((_analyze_any f).2).isOk = true) →
      ∃ out, analyze_directories roots c order fuel = Option.some out ∧
        List.Sorted (· ≤ ·) out.progress ∧ ∀ x ∈ out.progress, 0 ≤ x ∧ x ≤ 1) ∧
    (∀ (files : List PyFile) (output : List String) (o : Options) (q : FilterOptions)
      (c : Ctl) (fuel : Nat) (fs : FSState),
      0 < fuel → (∀ t, c.stop t = false) → (∀ t, c.pause t = false) →
      (∀ f ∈ files.filter (fun f => !f.isDir), (filterStep q f).isOk = true) →
      ∃ prog filtered org, filter_files files output o q c fuel fs =
          Option.some (FilterRes.completed prog filtered org) ∧
        List.Sorted (· ≤ ·) prog ∧ (∀ x ∈ prog, 0 ≤ x ∧ x ≤ 1) ∧
        List.Sorted (· ≤ ·) org.progress ∧ ∀ x ∈ org.progress, 0 ≤ x ∧ x ≤ 1) := by
  constructor
  · intro roots c order fuel hf hs hp hperm hok
    unfold analyze_directories
    rw [walkLoop_complete c hs hp fuel hf roots.flatten 0 0 0 []]
    simp only [List.nil_append, Nat.zero_add]
    by_cases hz : (roots.flatten).flatten.length = 0
    · simp only [hz, if_pos rfl]
      exact ⟨_, rfl, List.sorted_nil, by simp⟩
    · simp only [hz, if_false]
      have hok2 : ∀ p ∈ (order.filterMap
          (fun j => ((roots.flatten).flatten)[j]?)).map _analyze_any, (p.2).isOk = true := by
        intro p hp2
        obtain ⟨g, hg, rfl⟩ := List.mem_map.mp hp2
        exact hok g hg
      obtain ⟨a, b, d, hagg⟩ :=
        aggLoop_complete c hs hp fuel (roots.flatten).flatten.length hf
          ((order.filterMap (fun j => ((roots.flatten).flatten)[j]?)).map _analyze_any)
          0 (2 * (roots.flatten).length) 0 0 [] [] [] hok2
      rw [hagg]
      have hbound : ∀ j ∈ order, j < (roots.flatten).flatten.length := by
        intro j hj
        exact List.mem_range.mp (hperm.mem_iff.mp hj)
      have hlen : ((order.filterMap
          (fun j => ((roots.flatten).flatten)[j]?)).map _analyze_any).length =
          (roots.flatten).flatten.length := by
        rw [List.length_map, filterMap_get_length _ order hbound, hperm.length_eq,
          List.length_range]
      refine ⟨_, rfl, ?_, ?_⟩
      · show List.Sorted (· ≤ ·) ((List.range ((order.filterMap
            (fun j => ((roots.flatten).flatten)[j]?)).map _analyze_any).length).map
            (fun j => ratDiv ((0 + j + 1 : Nat) : Rat)
              (((roots.flatten).flatten.length : Nat) : Rat)))
        rw [range_map_zero_shift, hlen]
        exact (progress_list_sorted_bounded _ _ le_rfl).1
      · show ∀ x ∈ (List.range ((order.filterMap
            (fun j => ((roots.flatten).flatten)[j]?)).map _analyze_any).length).map
            (fun j => ratDiv ((0 + j + 1 : Nat) : Rat)
              (((roots.flatten).flatten.length : Nat) : Rat)), 0 ≤ x ∧ x ≤ 1
        rw [range_map_zero_shift, hlen]
        exact (progress_list_sorted_bounded _ _ le_rfl).2
  · intro files output o q c fuel fs hf hs hp hok
    unfold filter_files
    dsimp only
    obtain ⟨acc2, hfl⟩ :=
      filtLoop_complete c hs hp fuel (files.filter (fun f => !f.isDir)).length hf q
        (files.filter (fun f => !f.isDir)) 0 0 0 [] hok
    rw [hfl]
    dsimp only
    unfold organize_files_by_options
    obtain ⟨org, horg, hprog⟩ :=
      gdfl_complete c hs hp fuel hf acc2 output o
        (0 + 3 * (files.filter (fun f => !f.isDir)).length) (mkdirParents fs output)
    rw [horg]
    refine ⟨_, acc2, org, rfl, ?_, ?_, ?_, ?_⟩
    · show List.Sorted (· ≤ ·) ((List.range (files.filter (fun f => !f.isDir)).length).map
        (fun j => ratDiv ((0 + j + 1 : Nat) : Rat)
          (((files.filter (fun f => !f.isDir)).length : Nat) : Rat)))
      rw [range_map_zero_shift]
      exact (progress_list_sorted_bounded _ _ le_rfl).1
    · show ∀ x ∈ (List.range (files.filter (fun f => !f.isDir)).length).map
        (fun j => ratDiv ((0 + j + 1 : Nat) : Rat)
          (((files.filter (fun f => !f.isDir)).length : Nat) : Rat)), 0 ≤ x ∧ x ≤ 1
      rw [range_map_zero_shift]
      exact (progress_list_sorted_bounded _ _ le_rfl).2
    · rw [hprog]
      exact (progress_list_sorted_bounded _ _ le_rfl).1
    · rw [hprog]
      exact (progress_list_sorted_bounded _ _ le_rfl).2

theorem progress_monotone_within_phases_witness :
    ∃ prog filtered org,
      filter_files [{ fname := "a.txt", statSize := Option.some 5 }] ["out"] {} {}
          ⟨fun _ => false, fun _ => false⟩ 1 ⟨[], []⟩ =
        Option.some (FilterRes.completed prog filtered org) ∧
      List.Sorted (· ≤ ·) prog ∧ (∀ x ∈ prog, 0 ≤ x ∧ x ≤ 1) ∧
      List.Sorted (· ≤ ·) org.progress ∧ ∀ x ∈ org.progress, 0 ≤ x ∧ x ≤ 1 :=
  progress_monotone_within_phases.2 [{ fname := "a.txt", statSize := Option.some 5 }]
    ["out"] {} {} ⟨fun _ => false, fun _ => false⟩ 1 ⟨[], []⟩
    (by decide) (fun _ => rfl) (fun _ => rfl) (by decide)

end GalleryInspector
